import Mathlib

/-!
# Help-desk bot (`src/app.js`): dialogs, ticket submission callback and card renderer

A shallow embedding of the pieces of `src/app.js` that carry behaviour:

* the `SubmitTicket` waterfall (four steps, explicit `dialogData` passing),
* the callback given to `client.post('/api/tickets', ...)`,
* `createCard` (four chained `String.prototype.replace` calls followed by `JSON.parse`),
* the `ExploreKnowledgeBase` dialog.

JavaScript strings are Lean strings; the text manipulated by `createCard` is a list of
characters.  A JavaScript exception is the `error` side of `Except`.  What the bot does to
the outside world (prompts, messages, HTTP calls, ending the dialog) is recorded as a list
of `Action`s in the order the statements run.
-/

namespace AzureBot

/-! ## JavaScript values and conversions -/

/-- Text as a sequence of characters. -/
abbrev Str := List Char

/-- The opening brace. -/
abbrev lbrace : Char := Char.ofNat 123

/-- The closing brace. -/
abbrev rbrace : Char := Char.ofNat 125

/-- An exception raised by the JavaScript runtime or by a library call. -/
inductive JSError where
  | typeError
  | ioError
  | syntaxError
  deriving DecidableEq, Repr

/-- The values a ticket identifier takes in this model: the body of the reply to
`POST /api/tickets` as the JSON client hands it to the callback, restricted to `undefined`,
`null`, booleans, integral numbers and strings. -/
inductive JSVal where
  | undefined
  | null
  | bool (b : Bool)
  | num (n : Int)
  | str (s : String)
  deriving DecidableEq, Repr

/-- The double nearest to a natural number (ties to even): numbers below `2^53` are
doubles themselves, a larger one keeps its 53 leading binary digits. -/
def roundToDouble (m : Nat) : Nat :=
  if m < 2 ^ 53 then m
  else
    let e := Nat.log2 m - 52
    let q := m / 2 ^ e
    let r := m % 2 ^ e
    let half := 2 ^ (e - 1)
    if r > half ∨ (r = half ∧ q % 2 = 1) then (q + 1) * 2 ^ e else q * 2 ^ e

/-- The pairs `(n, s)` such that `s` has `k` digits and `s * 10 ^ (n - k)` rounds to the
double `x`. -/
def digitCandidates (x : Nat) (k : Nat) : List (Nat × Nat) :=
  let d := (Nat.toDigits 10 x).length
  [d, d + 1].flatMap fun n =>
    let p := 10 ^ (n - k)
    [x / p, x / p + 1].filterMap fun s =>
      if 10 ^ (k - 1) ≤ s ∧ s < 10 ^ k ∧ roundToDouble (s * p) = x then some (n, s) else none

/-- Distance between two natural numbers. -/
def natDist (a b : Nat) : Nat :=
  (a - b) + (b - a)

/-- The candidate with `k` digits closest to `x`, the even one on a tie. -/
def bestCandidate (x k : Nat) : Option (Nat × Nat) :=
  (digitCandidates x k).foldl (fun best c =>
    match best with
    | none => some c
    | some b =>
      let db := natDist (b.2 * 10 ^ (b.1 - k)) x
      let dc := natDist (c.2 * 10 ^ (c.1 - k)) x
      if dc < db ∨ (dc = db ∧ c.2 % 2 = 0 ∧ b.2 % 2 = 1) then some c else some b) none

/-- The shortest digits that name the double `x`, an integer from `2^53` on: the number of
digits `k`, the decimal exponent `n` and the digits `s`. -/
def shortestDigits (x : Nat) : Nat × Nat × Nat :=
  match (List.range 17).findSome? (fun i => (bestCandidate x (i + 1)).map fun c => (i + 1, c)) with
  | some (k, n, s) => (k, n, s)
  | none => (0, 0, 0)

/-- Number::toString of the double nearest to a natural number: the decimal numeral below
`2^53`; from there on the shortest digits that name the double, filled with zeros up to
21 digits and in exponent notation beyond; `Infinity` past the largest double. -/
def natToJSString (m : Nat) : String :=
  if m < 2 ^ 53 then toString m
  else
    let x := roundToDouble m
    if 2 ^ 1024 ≤ x then "Infinity"
    else
      match shortestDigits x with
      | (k, n, s) =>
        let ds := Nat.toDigits 10 s
        if n ≤ 21 then String.mk (ds ++ List.replicate (n - k) '0')
        else if k = 1 then String.mk ds ++ "e+" ++ toString (n - 1)
        else String.mk (ds.take 1 ++ '.' :: ds.drop 1) ++ "e+" ++ toString (n - 1)

/-- ToString of a ticket identifier, as performed by a template literal and by `replace` on
its second argument.  The number `num n` is the double nearest to `n`, the value the JSON
client reads from the numeral `n`. -/
def JSVal.toStr : JSVal → String
  | .undefined => "undefined"
  | .null => "null"
  | .bool true => "true"
  | .bool false => "false"
  | .num n => if n < 0 then "-" ++ natToJSString n.natAbs else natToJSString n.natAbs
  | .str s => s

/-- ToBoolean of a ticket identifier. -/
def JSVal.truthy : JSVal → Bool
  | .undefined => false
  | .null => false
  | .bool b => b
  | .num n => n != 0
  | .str s => s != ""

/-- ToString of a slot: an unset slot is `undefined`. -/
def slotStr : Option String → String
  | none => "undefined"
  | some s => s

/-- ToBoolean of a slot: `undefined` and the empty string are falsy. -/
def slotTruthy : Option String → Bool
  | none => false
  | some s => s != ""

/-! ### `ticketId == -1`

Loose equality with the number `-1`.  A string operand is converted with StringToNumber:
surrounding white space is dropped and the rest is read as a signed decimal literal whose
mathematical value is rounded to the nearest double.  Only a literal with a minus sign can
convert to `-1`, so the hexadecimal, octal, binary and `Infinity` forms never qualify. -/

/-- The characters StringToNumber strips (WhiteSpace and LineTerminator). -/
def isStrWhiteSpace (c : Char) : Bool :=
  let n := c.toNat
  n == 9 || n == 10 || n == 11 || n == 12 || n == 13 || n == 32 || n == 160 || n == 5760
    || (8192 ≤ n && n ≤ 8202) || n == 8232 || n == 8233 || n == 8239 || n == 8287
    || n == 12288 || n == 65279

/-- Drop white space at both ends. -/
def trimWhiteSpace (s : Str) : Str :=
  ((s.dropWhile isStrWhiteSpace).reverse.dropWhile isStrWhiteSpace).reverse

/-- The number written by a run of decimal digits. -/
def digitsValue (ds : Str) : Nat :=
  ds.foldl (fun acc d => 10 * acc + (d.toNat - 48)) 0

/-- The exponent part at the end of a decimal literal (`0` when there is none). -/
def parseExponent : Str → Option Int
  | [] => some 0
  | e :: rest =>
    if e = 'e' ∨ e = 'E' then
      let signed : Bool × Str :=
        match rest with
        | '-' :: r => (true, r)
        | '+' :: r => (false, r)
        | r => (false, r)
      if signed.2 ≠ [] ∧ signed.2.all Char.isDigit then
        some (if signed.1 then -(digitsValue signed.2 : Int) else (digitsValue signed.2 : Int))
      else none
    else none

/-- An unsigned decimal literal, read as `mantissa * 10 ^ scale`. -/
def parseUnsignedDecimal (s : Str) : Option (Nat × Int) :=
  let ip := s.takeWhile Char.isDigit
  let afterInt := s.dropWhile Char.isDigit
  let frac : Str × Str :=
    match afterInt with
    | '.' :: r => (r.takeWhile Char.isDigit, r.dropWhile Char.isDigit)
    | r => ([], r)
  if ip = [] ∧ frac.1 = [] then none
  else
    match parseExponent frac.2 with
    | none => none
    | some e => some (digitsValue (ip ++ frac.1), e - (frac.1.length : Int))

/-- Whether `m * 10 ^ p` rounds to the double `1`: it lies between the midpoints
`1 - 2^-54` and `1 + 2^-53`, both of which round to `1` (ties to even). -/
def roundsToOne (m : Nat) (p : Int) : Bool :=
  if 0 ≤ p then m * 10 ^ p.toNat == 1
  else
    decide ((2 ^ 54 - 1) * 10 ^ (-p).toNat ≤ m * 2 ^ 54)
      && decide (m * 2 ^ 53 ≤ (2 ^ 53 + 1) * 10 ^ (-p).toNat)

/-- StringToNumber of `s` yields `-1`. -/
def stringIsMinusOne (s : String) : Bool :=
  match trimWhiteSpace s.toList with
  | '-' :: r =>
    match parseUnsignedDecimal r with
    | some (m, p) => roundsToOne m p
    | none => false
  | _ => false

/-- The test `ticketId == -1`. -/
def looseEqMinusOne : JSVal → Bool
  | .undefined => false
  | .null => false
  | .bool _ => false
  | .num n => n == -1
  | .str s => stringIsMinusOne s

/-! ## `String.prototype.replace` with a global literal pattern -/

/-- GetSubstitution for a match without capture groups: in the replacement text `$$` is a
dollar sign, `$&` the matched text, a dollar sign followed by a backtick the text before the
match, a dollar sign followed by an apostrophe the text after it; every other character,
a dollar sign before a digit included, stands for itself. -/
def getSubstitution (matched pre post : Str) : Str → Str
  | [] => []
  | [c] => [c]
  | c :: d :: r =>
    if c = '$' then
      if d = '$' then '$' :: getSubstitution matched pre post r
      else if d = '&' then matched ++ getSubstitution matched pre post r
      else if d = Char.ofNat 96 then pre ++ getSubstitution matched pre post r
      else if d = Char.ofNat 39 then post ++ getSubstitution matched pre post r
      else c :: getSubstitution matched pre post (d :: r)
    else c :: getSubstitution matched pre post (d :: r)

/-- The scan of `s.replace(/tok/g, repl)` for a non-empty literal pattern `tok`: `pre` is
the part of the input already passed, the counter is the number of characters of the
current match still to be skipped.  Matches are found left to right, do not overlap, and
the text put in is not scanned again. -/
def jsReplaceGo (tok repl : Str) : Nat → Str → Str → Str
  | _, _, [] => []
  | k + 1, pre, c :: cs => jsReplaceGo tok repl k (pre ++ [c]) cs
  | 0, pre, c :: cs =>
    if tok.isPrefixOf (c :: cs) then
      getSubstitution tok pre ((c :: cs).drop tok.length) repl
        ++ jsReplaceGo tok repl (tok.length - 1) (pre ++ [c]) cs
    else c :: jsReplaceGo tok repl 0 (pre ++ [c]) cs

/-- The call `s.replace(/tok/g, repl)`. -/
def jsReplace (tok repl s : Str) : Str :=
  jsReplaceGo tok repl 0 [] s

/-! ## `createCard` -/

/-- A placeholder: its name between braces. -/
def tokOf (name : Str) : Str :=
  lbrace :: (name ++ [rbrace])

/-- The name inside `/{ticketId}/g`. -/
def nameTicketId : Str := "ticketId".toList

/-- The name inside `/{severity}/g`. -/
def nameSeverity : Str := "severity".toList

/-- The name inside `/{category}/g`. -/
def nameCategory : Str := "category".toList

/-- The name inside `/{description}/g`. -/
def nameDescription : Str := "description".toList

/-- The four placeholder names, in the order of the `replace` calls. -/
def tokenNames : List Str :=
  [nameTicketId, nameSeverity, nameCategory, nameDescription]

/-- The data sent to the ticket endpoint and handed to `createCard`: the object literal
`{category, severity, description}` built from `dialogData`. -/
structure TicketRequest where
  category : Option String
  severity : Option String
  description : Option String
  deriving DecidableEq, Repr

/-- The text `createCard` hands to `JSON.parse`: the four chained `replace` calls applied
to the content of `./cards/ticket.json`. -/
def createCardText (cardText : Str) (ticketId : JSVal) (data : TicketRequest) : Str :=
  jsReplace (tokOf nameDescription) (slotStr data.description).toList
    (jsReplace (tokOf nameCategory) (slotStr data.category).toList
      (jsReplace (tokOf nameSeverity) (slotStr data.severity).toList
        (jsReplace (tokOf nameTicketId) ticketId.toStr.toList cardText)))

/-- Structured data, the result of `JSON.parse`. -/
inductive Json where
  | null
  | bool (b : Bool)
  | num (n : Int)
  | str (s : String)
  | arr (items : List Json)
  | obj (fields : List (String × Json))

/-- What `createCard` takes from its surroundings: the outcome of
`fs.readFileSync('./cards/ticket.json', 'UTF-8')` (the file is not part of the sources at
hand) and the behaviour of `JSON.parse`. -/
structure Env where
  readTemplate : Except JSError Str
  jsonParse : Str → Except JSError Json

/-- The function `createCard(ticketId, data)`. -/
def createCard (env : Env) (ticketId : JSVal) (data : TicketRequest) : Except JSError Json :=
  match env.readTemplate with
  | .error e => .error e
  | .ok cardText => env.jsonParse (createCardText cardText ticketId data)

/-! ## Substitution of several placeholders in one pass

The reading of "replace every occurrence of each marker by its value and change nothing
else": the template is scanned once from left to right; where a placeholder stands its
value is written and the scan goes on behind the placeholder, every other character is
copied.  Values are taken literally and are never scanned. -/

/-- The first rule whose placeholder stands at the head of `s`. -/
def firstMatch (rules : List (Str × Str)) (s : Str) : Option (Str × Str) :=
  rules.find? (fun r => r.1.isPrefixOf s)

/-- One left-to-right pass replacing the placeholders of `rules` by their values; the
counter is the number of characters of the current placeholder still to be skipped. -/
def substGo (rules : List (Str × Str)) : Nat → Str → Str
  | _, [] => []
  | k + 1, _ :: cs => substGo rules k cs
  | 0, c :: cs =>
    match firstMatch rules (c :: cs) with
    | some r => r.2 ++ substGo rules (r.1.length - 1) cs
    | none => c :: substGo rules 0 cs

/-- The four placeholders with the values of a ticket. -/
def ticketRules (ticketId : JSVal) (data : TicketRequest) : List (Str × Str) :=
  [(tokOf nameTicketId, ticketId.toStr.toList),
   (tokOf nameSeverity, (slotStr data.severity).toList),
   (tokOf nameCategory, (slotStr data.category).toList),
   (tokOf nameDescription, (slotStr data.description).toList)]

/-- The template with every occurrence of each of the four placeholders replaced by the
corresponding value, taken literally, and nothing else changed. -/
def substituteTokens (template : Str) (ticketId : JSVal) (data : TicketRequest) : Str :=
  substGo (ticketRules ticketId data) 0 template

/-- A value that is free of dollar signs and braces and is not a piece of a placeholder
name (so it is not empty either). -/
def Plain (v : Str) : Prop :=
  '$' ∉ v ∧ lbrace ∉ v ∧ rbrace ∉ v ∧ ∀ name ∈ tokenNames, ¬ v <:+: name

instance (v : Str) : Decidable (Plain v) := by
  unfold Plain; infer_instance

/-- A value that contains no dollar sign and none of the four placeholders. -/
def TokenFree (v : Str) : Prop :=
  '$' ∉ v ∧ ∀ name ∈ tokenNames, ¬ tokOf name <:+: v

instance (v : Str) : Decidable (TokenFree v) := by
  unfold TokenFree; infer_instance

/-- A replacement text without special pattern: no dollar sign is directly followed by a
dollar sign, an ampersand, a backtick or an apostrophe. -/
def dollarSafe : Str → Bool
  | [] => true
  | [_] => true
  | c :: d :: r =>
    !(c == '$' && (d == '$' || d == '&' || d == Char.ofNat 96 || d == Char.ofNat 39))
      && dollarSafe (d :: r)

/-- A value overlaps a placeholder when it can take part in an occurrence of the
placeholder: it is a piece of the placeholder (the empty value is), it contains the
placeholder, it begins with an end of the placeholder, or it ends with a beginning of it. -/
def Overlaps (v t : Str) : Prop :=
  v <:+: t ∨ t <:+: v ∨ (∃ p ∈ v.inits, p ≠ [] ∧ p <:+ t) ∨ (∃ s ∈ v.tails, s ≠ [] ∧ s <+: t)

instance (v t : Str) : Decidable (Overlaps v t) := by
  unfold Overlaps; infer_instance

/-- No value overlaps the placeholder of a later `replace` call, unless the value written
by that later call is the placeholder itself (the call then changes nothing): the
identifier does not overlap the placeholders of severity, category and description, the
severity those of category and description, the category that of description. -/
def ClearOfLater (ticketId : JSVal) (data : TicketRequest) : Prop :=
  ((slotStr data.severity).toList = tokOf nameSeverity
      ∨ ¬ Overlaps ticketId.toStr.toList (tokOf nameSeverity))
    ∧ ((slotStr data.category).toList = tokOf nameCategory
      ∨ (¬ Overlaps ticketId.toStr.toList (tokOf nameCategory)
        ∧ ¬ Overlaps (slotStr data.severity).toList (tokOf nameCategory)))
    ∧ ((slotStr data.description).toList = tokOf nameDescription
      ∨ (¬ Overlaps ticketId.toStr.toList (tokOf nameDescription)
        ∧ ¬ Overlaps (slotStr data.severity).toList (tokOf nameDescription)
        ∧ ¬ Overlaps (slotStr data.category).toList (tokOf nameDescription)))

instance (ticketId : JSVal) (data : TicketRequest) : Decidable (ClearOfLater ticketId data) := by
  unfold ClearOfLater; infer_instance

/-- A template with the four placeholders inside structured data. -/
def sampleTemplate : Str :=
  ("\x7b\"id\":\"\x7bticketId\x7d\",\"facts\":[\"\x7bseverity\x7d\",\"\x7bcategory\x7d\"],"
    ++ "\"text\":\"\x7bdescription\x7d\"\x7d").toList

/-- The ticket of the round-trip example. -/
def sampleTicket : TicketRequest :=
  ⟨some "network", some "high", some "no wifi"⟩

/-- Rules whose placeholders open with a brace and whose values have no brace and are not
a piece of `name`. -/
structure RulesOK (rules : List (Str × Str)) (name : Str) : Prop where
  opens : ∀ r ∈ rules, ∃ rest, r.1 = lbrace :: rest
  noL : ∀ r ∈ rules, lbrace ∉ r.2
  noR : ∀ r ∈ rules, rbrace ∉ r.2
  noInfix : ∀ r ∈ rules, ¬ r.2 <:+: name

/-! ## The dialogs -/

/-- The member `resolution` of a recognised entity; `values` may be missing. -/
structure Resolution where
  values : Option (List String)
  deriving DecidableEq, Repr

/-- An entity of the recognised intent. -/
structure Entity where
  type : String
  entity : String
  resolution : Option Resolution
  deriving DecidableEq, Repr

/-- The library call `builder.EntityRecognizer.findEntity(entities, type)`: the first entity
of the given type, `null` when there is none. -/
def findEntity (entities : List Entity) (type : String) : Option Entity :=
  entities.find? (fun e => e.type == type)

/-- The record `session.dialogData` of the `SubmitTicket` dialog; a missing member is
`undefined`. -/
structure DialogData where
  category : Option String
  severity : Option String
  description : Option String
  deriving DecidableEq, Repr

/-- The record `session.dialogData` when the dialog is entered. -/
def DialogData.empty : DialogData :=
  ⟨none, none, none⟩

/-- How choices are shown. -/
inductive ListStyle where
  | button
  deriving DecidableEq, Repr

/-- An effect of the bot on the conversation or on a remote service. -/
inductive Action where
  | promptChoice (text : String) (choices : List String) (style : ListStyle)
  | promptText (text : String)
  | promptConfirm (text : String) (style : ListStyle)
  | send (text : String)
  | sendCard (contentType : String) (content : Json)
  | post (path : String) (data : TicketRequest)
  | search (query : String)
  | log (error : String)
  | endDialog (text : Option String)

/-- Whether an action is a call to the ticket endpoint. -/
def Action.isPost : Action → Bool
  | .post _ _ => true
  | _ => false

/-- Whether an action sends a card. -/
def Action.isCard : Action → Bool
  | .sendCard _ _ => true
  | _ => false

/-- How a waterfall step hands over: it issued a prompt and waits for the reply, it called
`next()`, or it ended the dialog. -/
inductive Control where
  | suspend
  | next
  | done
  deriving DecidableEq, Repr

/-- The outcome of a waterfall step that returned. -/
structure StepResult where
  dialogData : DialogData
  out : List Action
  control : Control

/-- The guard and the right-hand side of
`if (e && e.resolution.values.length > 0) slot = e.resolution.values[0]`: the value to
store, if any.  Reading `.values` of a missing `resolution`, or `.length` of a missing
`values`, throws a TypeError. -/
def firstValue : Option Entity → Except JSError (Option String)
  | none => .ok none
  | some e =>
    match e.resolution with
    | none => .error .typeError
    | some r =>
      match r.values with
      | none => .error .typeError
      | some [] => .ok none
      | some (v :: _) => .ok (some v)

/-- The question of the severity prompt. -/
def severityQuestion : String := "which is the severity of this problem?"

/-- The question of the category prompt. -/
def categoryQuestion : String :=
  "Which would be the category for this ticket (software, hardware, network, and so on)?"

/-- The message of the confirmation prompt. -/
def confirmMessage (dd : DialogData) : String :=
  "Great! I'm going to create a \"" ++ slotStr dd.severity ++ "\" severity ticket in the \""
    ++ slotStr dd.category ++ "\" category. " ++ "The description I will use is \""
    ++ slotStr dd.description ++ "\". Can you please confirm that this information is correct?"

/-- The notice sent when the user declines. -/
def cancelNotice : String :=
  "Ok. The ticket was not created. You can start again if you want."

/-- The message sent when the ticket could not be saved. -/
def retryLater : String :=
  "Something went wrong while I was saving your ticket. Please try again later."

/-- The message announcing the created ticket. -/
def createdMessage (ticketId : JSVal) : String :=
  "Awesome! Your ticket has been created with the number " ++ ticketId.toStr ++ "."

/-- The content type of the card attachment. -/
def adaptiveCard : String := "application/vnd.microsoft.card.adaptive"

/-- The value a slot holds at the confirmation prompt: the value taken from the entities
when it is truthy, the reply of the user otherwise. -/
def slotOr (extracted : Option String) (reply : String) : String :=
  match extracted with
  | some v => if v != "" then v else reply
  | none => reply

/-- The first step of `SubmitTicket`: `text` is `session.message.text`, `entities` is
`args.intent.entities`. -/
def step1 (dd : DialogData) (text : String) (entities : List Entity) :
    Except JSError StepResult :=
  let category := findEntity entities "category"
  let severity := findEntity entities "severity"
  match firstValue category with
  | .error e => .error e
  | .ok c =>
    let dd1 : DialogData :=
      match c with
      | some v => { dd with category := some v }
      | none => dd
    match firstValue severity with
    | .error e => .error e
    | .ok s =>
      let dd2 : DialogData :=
        match s with
        | some v => { dd1 with severity := some v }
        | none => dd1
      let dd3 : DialogData := { dd2 with description := some text }
      if !slotTruthy dd3.severity then
        .ok ⟨dd3, [.promptChoice severityQuestion ["high", "normal", "low"] .button], .suspend⟩
      else
        .ok ⟨dd3, [], .next⟩

/-- The second step: `result` is `result.response.entity` when the step is resumed with a
response and `none` when `result.response` is `undefined` (the step was reached through
`next()`); reading `.entity` of `undefined` throws. -/
def step2 (dd : DialogData) (result : Option String) : Except JSError StepResult :=
  let assigned : Except JSError DialogData :=
    if !slotTruthy dd.severity then
      match result with
      | none => .error .typeError
      | some entity => .ok { dd with severity := some entity }
    else .ok dd
  match assigned with
  | .error e => .error e
  | .ok dd1 =>
    if !slotTruthy dd1.category then
      .ok ⟨dd1, [.promptText categoryQuestion], .suspend⟩
    else
      .ok ⟨dd1, [], .next⟩

/-- The third step: `result` is `result.response`, `none` when it is `undefined`. -/
def step3 (dd : DialogData) (result : Option String) : StepResult :=
  let dd1 : DialogData :=
    if !slotTruthy dd.category then { dd with category := result } else dd
  ⟨dd1, [.promptConfirm (confirmMessage dd1) .button], .suspend⟩

/-- The fourth step: `result` is `result.response`, `none` when it is `undefined`.  The
callback of the call is `postCallback`, applied to the same `data`; the step does not wait
for it. -/
def step4 (dd : DialogData) (result : Option Bool) : StepResult :=
  if result = some true then
    let data : TicketRequest := ⟨dd.category, dd.severity, dd.description⟩
    ⟨dd, [.post "/api/tickets" data, .endDialog none], .done⟩
  else
    ⟨dd, [.endDialog (some cancelNotice)], .done⟩

/-- What the callback of `client.post` did: the actions performed, and the exception that
ended it, if any. -/
structure Outcome where
  out : List Action
  thrown : Option JSError

/-- The callback `(err, request, response, ticketId) => ...` of `client.post`, for the
request `data`; `err` is `none` for `null`. -/
def postCallback (env : Env) (err : Option String) (ticketId : JSVal) (data : TicketRequest) :
    Outcome :=
  if err.isSome || looseEqMinusOne ticketId then
    ⟨[.send retryLater], none⟩
  else
    match createCard env ticketId data with
    | .ok card => ⟨[.send (createdMessage ticketId), .sendCard adaptiveCard card], none⟩
    | .error e => ⟨[.send (createdMessage ticketId)], some e⟩

/-- What the library hands to the dialog: the recogniser starts `SubmitTicket` on a message
with text, `Prompts.choice` resumes the waterfall with one of the offered choices, and
`Prompts.text` resumes it with a non-empty text (an empty message is asked again). -/
def Delivered (text s c : String) : Prop :=
  text ≠ "" ∧ s ∈ ["high", "normal", "low"] ∧ c ≠ ""

instance (text s c : String) : Decidable (Delivered text s c) := by
  unfold Delivered; infer_instance

/-- The waterfall up to the confirmation prompt: `s` is the choice the user makes if the
severity prompt is issued, `c` the text typed if the category prompt is issued.  A step
reached through `next()` sees no response.  Returns the actions so far and `dialogData`
at the confirmation prompt.  The function is defined for all strings; the replies a run
really sees are the `Delivered` ones. -/
def runToConfirm (text : String) (entities : List Entity) (s c : String) :
    Except JSError (List Action × DialogData) :=
  match step1 DialogData.empty text entities with
  | .error e => .error e
  | .ok r1 =>
    let result2 : Option String :=
      match r1.control with
      | .suspend => some s
      | _ => none
    match step2 r1.dialogData result2 with
    | .error e => .error e
    | .ok r2 =>
      let result3 : Option String :=
        match r2.control with
        | .suspend => some c
        | _ => none
      let r3 := step3 r2.dialogData result3
      .ok (r1.out ++ r2.out ++ r3.out, r3.dialogData)

/-- A whole run of `SubmitTicket`: `b` is the answer to the confirmation prompt. -/
def runSubmitTicket (text : String) (entities : List Entity) (s c : String) (b : Bool) :
    Except JSError (List Action) :=
  match runToConfirm text entities s c with
  | .error e => .error e
  | .ok (acts, dd) => .ok (acts ++ (step4 dd (some b)).out)

/-! ### `ExploreKnowledgeBase` -/

/-- The hexadecimal digit of a number below sixteen, in upper case. -/
def hexDigit (n : Nat) : Char :=
  if n < 10 then Char.ofNat (48 + n) else Char.ofNat (55 + n)

/-- The UTF-8 bytes of a character. -/
def utf8Bytes (c : Char) : List Nat :=
  let n := c.toNat
  if n < 128 then [n]
  else if n < 2048 then [192 + n / 64, 128 + n % 64]
  else if n < 65536 then [224 + n / 4096, 128 + n / 64 % 64, 128 + n % 64]
  else [240 + n / 262144, 128 + n / 4096 % 64, 128 + n / 64 % 64, 128 + n % 64]

/-- The characters `encodeURIComponent` leaves alone. -/
def isUnreserved (c : Char) : Bool :=
  c.isAlphanum || c = '-' || c = '_' || c = '.' || c = '!' || c = '~' || c = '*'
    || c = Char.ofNat 39 || c = '(' || c = ')'

/-- The function `encodeURIComponent`. -/
def encodeURIComponent (s : String) : String :=
  String.mk (s.toList.flatMap fun c =>
    if isUnreserved c then [c]
    else (utf8Bytes c).flatMap fun b => ['%', hexDigit (b / 16), hexDigit (b % 16)])

/-- The usage hint of `ExploreKnowledgeBase`. -/
def usageHint : String := "Try typing something like _explore hardware_."

/-- The only step of `ExploreKnowledgeBase`, up to the search request. -/
def exploreKnowledgeBase (entities : List Entity) : List Action :=
  match findEntity entities "category" with
  | none => [.endDialog (some usageHint)]
  | some category =>
    [.search ("fileter=" ++ encodeURIComponent ("category eq " ++ category.entity))]

/-- The callback of the search request; `titles` are the `title` members of
`result.value`. -/
def searchCallback (category : Entity) (error : Option String) (titles : List String) :
    List Action :=
  match error with
  | some e =>
    [.log e,
     .endDialog (some
       "Ooops! Something went wrong while contacting Azure Search. Please try again later.")]
  | none =>
    [.endDialog (some (titles.foldl (fun msg title => msg ++ "\n * " ++ title)
      ("These are some articles I've found in the knowledge base for the _'"
        ++ category.entity ++ "'_ category:")))]

/-! ## Lemmas on the substitution passes -/

theorem substGo_skip (rules : List (Str × Str)) (k : Nat) (s : Str) :
    substGo rules k s = substGo rules 0 (s.drop k) := by
  induction s generalizing k with
  | nil => cases k <;> simp [substGo]
  | cons c cs ih =>
    cases k with
    | zero => simp
    | succ k => simp only [substGo, List.drop_succ_cons]; exact ih k

theorem substGo_nil (rules : List (Str × Str)) : substGo rules 0 [] = [] := by
  simp [substGo]

theorem substGo_cons_none (rules : List (Str × Str)) (c : Char) (cs : Str)
    (h : firstMatch rules (c :: cs) = none) :
    substGo rules 0 (c :: cs) = c :: substGo rules 0 cs := by
  simp [substGo, h]

theorem substGo_cons_some (rules : List (Str × Str)) (c : Char) (cs : Str) (r : Str × Str)
    (h : firstMatch rules (c :: cs) = some r) :
    substGo rules 0 (c :: cs) = r.2 ++ substGo rules 0 (cs.drop (r.1.length - 1)) := by
  simp only [substGo, h]
  rw [substGo_skip]

/-- No rule fires at a character other than the opening brace. -/
theorem firstMatch_none_of_ne (rules : List (Str × Str))
    (hr : ∀ r ∈ rules, ∃ rest, r.1 = lbrace :: rest) (c : Char) (cs : Str) (hc : c ≠ lbrace) :
    firstMatch rules (c :: cs) = none := by
  unfold firstMatch
  rw [List.find?_eq_none]
  intro r hmem hp
  obtain ⟨rest, hrest⟩ := hr r hmem
  rw [hrest] at hp
  simp at hp
  exact hc hp.1.symm

theorem substGo_append_of_not_mem (rules : List (Str × Str))
    (hr : ∀ r ∈ rules, ∃ rest, r.1 = lbrace :: rest) (w x : Str) (hw : lbrace ∉ w) :
    substGo rules 0 (w ++ x) = w ++ substGo rules 0 x := by
  induction w with
  | nil => simp
  | cons c w ih =>
    have hc : c ≠ lbrace := fun h => hw (by simp [h])
    have hw2 : lbrace ∉ w := fun h => hw (List.mem_cons_of_mem _ h)
    rw [List.cons_append, substGo_cons_none rules c (w ++ x) (firstMatch_none_of_ne rules hr c _ hc),
      ih hw2, List.cons_append]

/-- An inert value at the head of a text cannot be where `w ++ "}"` starts. -/
theorem not_prefix_inert_append (w v x : Str) (h1 : rbrace ∉ v) (h2 : ¬ v <:+: w) :
    ¬ (w ++ [rbrace]) <+: v ++ x := by
  intro h
  rcases List.prefix_or_prefix_of_prefix h (List.prefix_append v x) with h3 | h3
  · exact h1 (h3.subset (by simp))
  · rw [List.prefix_concat_iff] at h3
    rcases h3 with h3 | h3
    · exact h1 (by rw [h3]; simp)
    · exact h2 h3.isInfix

/-- A closing part `w ++ "}"` of a token seen at the head of the substituted text was already
at the head of the input: inert values cannot complete it. -/
theorem prefix_of_prefix_substGo (rules : List (Str × Str)) (w : Str)
    (hv : ∀ r ∈ rules, rbrace ∉ r.2 ∧ ¬ r.2 <:+: w) (cs : Str)
    (h : (w ++ [rbrace]) <+: substGo rules 0 cs) : (w ++ [rbrace]) <+: cs := by
  induction w generalizing cs with
  | nil =>
    cases cs with
    | nil => simp [substGo] at h
    | cons c cs =>
      cases hm : firstMatch rules (c :: cs) with
      | none =>
        rw [substGo_cons_none rules c cs hm] at h
        simp at h ⊢
        exact h
      | some r =>
        exfalso
        have hmem : r ∈ rules := List.mem_of_find?_eq_some hm
        rw [substGo_cons_some rules c cs r hm] at h
        exact not_prefix_inert_append [] r.2 _ (hv r hmem).1 (hv r hmem).2 h
  | cons b w ih =>
    cases cs with
    | nil => simp [substGo] at h
    | cons c cs =>
      cases hm : firstMatch rules (c :: cs) with
      | none =>
        rw [substGo_cons_none rules c cs hm] at h
        rw [List.cons_append, List.cons_prefix_cons] at h ⊢
        refine ⟨h.1, ih ?_ cs h.2⟩
        intro r hmem
        refine ⟨(hv r hmem).1, fun hi => (hv r hmem).2 ?_⟩
        exact hi.trans (List.infix_cons (List.infix_refl _))
      | some r =>
        exfalso
        have hmem : r ∈ rules := List.mem_of_find?_eq_some hm
        rw [substGo_cons_some rules c cs r hm] at h
        exact not_prefix_inert_append (b :: w) r.2 _ (hv r hmem).1 (hv r hmem).2 h

theorem firstMatch_append_some (rules more : List (Str × Str)) (s : Str) (r : Str × Str)
    (h : firstMatch rules s = some r) : firstMatch (rules ++ more) s = some r := by
  unfold firstMatch at h ⊢
  rw [List.find?_append, h]; rfl

theorem firstMatch_append_none (rules more : List (Str × Str)) (s : Str)
    (h : firstMatch rules s = none) : firstMatch (rules ++ more) s = firstMatch more s := by
  unfold firstMatch at h ⊢
  rw [List.find?_append, h]; rfl

theorem firstMatch_single (t v s : Str) :
    firstMatch [(t, v)] s = if t.isPrefixOf s then some (t, v) else none := by
  unfold firstMatch
  by_cases h : t.isPrefixOf s <;> simp [List.find?, h]

/-- One more pass over an already substituted text is the same as adding the rule. -/
theorem substGo_compose (rules : List (Str × Str)) (name v : Str)
    (hname : lbrace ∉ name) (ok : RulesOK rules name) (n : Nat) :
    ∀ s : Str, s.length ≤ n →
      substGo [(tokOf name, v)] 0 (substGo rules 0 s)
        = substGo (rules ++ [(tokOf name, v)]) 0 s := by
  induction n with
  | zero =>
    intro s hs
    have : s = [] := List.length_eq_zero.mp (Nat.le_zero.mp hs)
    subst this
    simp [substGo]
  | succ n ih =>
    intro s hs
    cases s with
    | nil => simp [substGo]
    | cons c cs =>
      have hcs : cs.length ≤ n := by simpa using hs
      cases hm : firstMatch rules (c :: cs) with
      | some r =>
        have hmem : r ∈ rules := List.mem_of_find?_eq_some hm
        rw [substGo_cons_some rules c cs r hm,
          substGo_cons_some _ c cs r (firstMatch_append_some rules _ _ r hm),
          substGo_append_of_not_mem [(tokOf name, v)] (by simp [tokOf]) _ _ (ok.noL r hmem),
          ih _ (le_trans (by simp) hcs)]
      | none =>
        rw [substGo_cons_none rules c cs hm]
        by_cases hp : (tokOf name).isPrefixOf (c :: cs) = true
        · -- the new token stands at the head of the template
          have hm2 : firstMatch (rules ++ [(tokOf name, v)]) (c :: cs) = some (tokOf name, v) := by
            rw [firstMatch_append_none rules _ _ hm, firstMatch_single, if_pos hp]
          rw [substGo_cons_some _ c cs _ hm2]
          obtain ⟨rest, hrest⟩ := List.isPrefixOf_iff_prefix.mp hp
          have hc : c = lbrace := by
            simp [tokOf] at hrest; exact hrest.1.symm
          have hcs2 : cs = (name ++ [rbrace]) ++ rest := by
            simp [tokOf] at hrest; simp [hrest.2]
          have hnl : lbrace ∉ name ++ [rbrace] := by
            simp [hname]; decide
          have hdrop : cs.drop ((tokOf name).length - 1) = rest := by
            rw [hcs2]; simp [tokOf]
          have hlen : rest.length ≤ n := by
            rw [← hdrop]; exact le_trans (by simp) hcs
          rw [hdrop, hcs2, substGo_append_of_not_mem rules ok.opens _ _ hnl, hc]
          have hm3 : firstMatch [(tokOf name, v)]
              (lbrace :: ((name ++ [rbrace]) ++ substGo rules 0 rest)) = some (tokOf name, v) := by
            rw [firstMatch_single, if_pos]
            rw [List.isPrefixOf_iff_prefix]
            exact ⟨substGo rules 0 rest, by simp [tokOf]⟩
          rw [substGo_cons_some _ _ _ _ hm3]
          have hdrop2 : ((name ++ [rbrace]) ++ substGo rules 0 rest).drop ((tokOf name).length - 1)
              = substGo rules 0 rest := by simp [tokOf]
          rw [hdrop2, ih rest hlen]
        · -- no token at the head, before or after the substitution
          have hm2 : firstMatch (rules ++ [(tokOf name, v)]) (c :: cs) = none := by
            rw [firstMatch_append_none rules _ _ hm, firstMatch_single, if_neg hp]
          rw [substGo_cons_none _ c cs hm2]
          have hm3 : firstMatch [(tokOf name, v)] (c :: substGo rules 0 cs) = none := by
            rw [firstMatch_single, if_neg]
            intro hq
            apply hp
            rw [List.isPrefixOf_iff_prefix] at hq ⊢
            unfold tokOf at hq ⊢
            rw [List.cons_prefix_cons] at hq ⊢
            refine ⟨hq.1, prefix_of_prefix_substGo rules name ?_ cs hq.2⟩
            intro r hmem
            exact ⟨ok.noR r hmem, ok.noInfix r hmem⟩
          rw [substGo_cons_none _ _ _ hm3, ih cs hcs]


/-- A token whose rule is present, with inert values all round, does not occur in the
substituted text. -/
theorem not_infix_substGo (rules : List (Str × Str)) (name : Str)
    (ok : RulesOK rules name) (hmem : ∃ v, (tokOf name, v) ∈ rules) (n : Nat) :
    ∀ s : Str, s.length ≤ n → ¬ tokOf name <:+: substGo rules 0 s := by
  induction n with
  | zero =>
    intro s hs
    have : s = [] := List.length_eq_zero.mp (Nat.le_zero.mp hs)
    subst this
    simp [substGo, tokOf]
  | succ n ih =>
    intro s hs
    cases s with
    | nil => simp [substGo, tokOf]
    | cons c cs =>
      have hcs : cs.length ≤ n := by simpa using hs
      cases hm : firstMatch rules (c :: cs) with
      | some r =>
        have hr : r ∈ rules := List.mem_of_find?_eq_some hm
        rw [substGo_cons_some rules c cs r hm]
        rintro ⟨p, q, hpq⟩
        rw [List.append_assoc, List.append_eq_append_iff] at hpq
        rcases hpq with ⟨a, h1, h2⟩ | ⟨a, h1, h2⟩
        · cases a with
          | nil =>
            refine ih (cs.drop (r.1.length - 1)) (le_trans (by simp) hcs) ⟨[], q, ?_⟩
            simpa using h2
          | cons x a =>
            have hx : x = lbrace := by
              simp [tokOf] at h2; exact h2.1.symm
            exact ok.noL r hr (by rw [h1, hx]; simp)
        · exact ih (cs.drop (r.1.length - 1)) (le_trans (by simp) hcs)
            ⟨a, q, by rw [h2, List.append_assoc]⟩
      | none =>
        rw [substGo_cons_none rules c cs hm, List.infix_cons_iff]
        rintro (hp | hi)
        · obtain ⟨v, hv⟩ := hmem
          unfold firstMatch at hm
          rw [List.find?_eq_none] at hm
          apply hm _ hv
          rw [List.isPrefixOf_iff_prefix]
          unfold tokOf at hp ⊢
          rw [List.cons_prefix_cons] at hp ⊢
          exact ⟨hp.1, prefix_of_prefix_substGo rules name
            (fun r hr => ⟨ok.noR r hr, ok.noInfix r hr⟩) cs hp.2⟩
        · exact ih cs hcs hi

theorem getSubstitution_of_not_mem (matched pre post repl : Str) (h : '$' ∉ repl) :
    getSubstitution matched pre post repl = repl := by
  induction repl with
  | nil => simp [getSubstitution]
  | cons c r ih =>
    have hc : c ≠ '$' := fun e => h (by simp [e])
    have hr : '$' ∉ r := fun e => h (List.mem_cons_of_mem _ e)
    cases r with
    | nil => simp [getSubstitution]
    | cons d r =>
      rw [getSubstitution, if_neg hc, ih hr]

theorem jsReplaceGo_eq_substGo (tok repl : Str) (h : '$' ∉ repl) (k : Nat) (pre s : Str) :
    jsReplaceGo tok repl k pre s = substGo [(tok, repl)] k s := by
  induction s generalizing k pre with
  | nil => cases k <;> simp [jsReplaceGo, substGo]
  | cons c cs ih =>
    cases k with
    | succ k => simp only [jsReplaceGo, substGo]; exact ih k _
    | zero =>
      simp only [jsReplaceGo, substGo, firstMatch_single]
      by_cases hp : tok.isPrefixOf (c :: cs) = true
      · simp only [hp, if_true]
        rw [getSubstitution_of_not_mem _ _ _ _ h, ih]
      · simp only [hp]
        simp [ih]

theorem jsReplace_eq_substGo (tok repl s : Str) (h : '$' ∉ repl) :
    jsReplace tok repl s = substGo [(tok, repl)] 0 s :=
  jsReplaceGo_eq_substGo tok repl h 0 [] s

theorem rulesOK_nil (name : Str) : RulesOK [] name :=
  ⟨by simp, by simp, by simp, by simp⟩

theorem rulesOK_snoc (rules : List (Str × Str)) (name n v : Str) (ok : RulesOK rules name)
    (hL : lbrace ∉ v) (hR : rbrace ∉ v) (hI : ¬ v <:+: name) :
    RulesOK (rules ++ [(tokOf n, v)]) name := by
  constructor
  · intro r hr
    rcases List.mem_append.mp hr with h | h
    · exact ok.opens r h
    · simp at h; subst h; exact ⟨n ++ [rbrace], rfl⟩
  · intro r hr
    rcases List.mem_append.mp hr with h | h
    · exact ok.noL r h
    · simp at h; subst h; exact hL
  · intro r hr
    rcases List.mem_append.mp hr with h | h
    · exact ok.noR r h
    · simp at h; subst h; exact hR
  · intro r hr
    rcases List.mem_append.mp hr with h | h
    · exact ok.noInfix r h
    · simp at h; subst h; exact hI

/-- Four successive passes are one simultaneous pass when the first three values have no
brace and are not a piece of the name of a later placeholder. -/
theorem substGo_four (n1 n2 n3 n4 v1 v2 v3 v4 s : Str)
    (hn2 : lbrace ∉ n2) (hn3 : lbrace ∉ n3) (hn4 : lbrace ∉ n4)
    (h1L : lbrace ∉ v1) (h1R : rbrace ∉ v1) (h2L : lbrace ∉ v2) (h2R : rbrace ∉ v2)
    (h3L : lbrace ∉ v3) (h3R : rbrace ∉ v3)
    (h12 : ¬ v1 <:+: n2) (h13 : ¬ v1 <:+: n3) (h14 : ¬ v1 <:+: n4)
    (h23 : ¬ v2 <:+: n3) (h24 : ¬ v2 <:+: n4) (h34 : ¬ v3 <:+: n4) :
    substGo [(tokOf n4, v4)] 0 (substGo [(tokOf n3, v3)] 0
        (substGo [(tokOf n2, v2)] 0 (substGo [(tokOf n1, v1)] 0 s)))
      = substGo [(tokOf n1, v1), (tokOf n2, v2), (tokOf n3, v3), (tokOf n4, v4)] 0 s := by
  have e2 := substGo_compose [(tokOf n1, v1)] n2 v2 hn2
    (rulesOK_snoc [] n2 n1 v1 (rulesOK_nil n2) h1L h1R h12) s.length s (le_refl _)
  have e3 := substGo_compose [(tokOf n1, v1), (tokOf n2, v2)] n3 v3 hn3
    (rulesOK_snoc [(tokOf n1, v1)] n3 n2 v2
      (rulesOK_snoc [] n3 n1 v1 (rulesOK_nil n3) h1L h1R h13) h2L h2R h23) s.length s (le_refl _)
  have e4 := substGo_compose [(tokOf n1, v1), (tokOf n2, v2), (tokOf n3, v3)] n4 v4 hn4
    (rulesOK_snoc [(tokOf n1, v1), (tokOf n2, v2)] n4 n3 v3
      (rulesOK_snoc [(tokOf n1, v1)] n4 n2 v2
        (rulesOK_snoc [] n4 n1 v1 (rulesOK_nil n4) h1L h1R h14) h2L h2R h24) h3L h3R h34)
      s.length s (le_refl _)
  simp only [List.nil_append, List.cons_append] at e2 e3 e4
  rw [e2, e3, e4]

theorem mem_tokenNames_lbrace (name : Str) (h : name ∈ tokenNames) : lbrace ∉ name := by
  simp only [tokenNames, List.mem_cons, List.mem_singleton, List.not_mem_nil, or_false] at h
  rcases h with h | h | h | h <;> subst h <;> decide

/-- With dollar-free values `createCard` parses the result of four literal passes. -/
theorem createCardText_eq_passes (template : Str) (ticketId : JSVal) (data : TicketRequest)
    (h1 : '$' ∉ ticketId.toStr.toList) (h2 : '$' ∉ (slotStr data.severity).toList)
    (h3 : '$' ∉ (slotStr data.category).toList)
    (h4 : '$' ∉ (slotStr data.description).toList) :
    createCardText template ticketId data
      = substGo [(tokOf nameDescription, (slotStr data.description).toList)] 0
          (substGo [(tokOf nameCategory, (slotStr data.category).toList)] 0
            (substGo [(tokOf nameSeverity, (slotStr data.severity).toList)] 0
              (substGo [(tokOf nameTicketId, ticketId.toStr.toList)] 0 template))) := by
  unfold createCardText
  rw [jsReplace_eq_substGo _ _ _ h1, jsReplace_eq_substGo _ _ _ h2,
    jsReplace_eq_substGo _ _ _ h3, jsReplace_eq_substGo _ _ _ h4]

/-- With plain values `createCard` parses the template with the placeholders replaced
where they stand. -/
theorem createCardText_eq_substituteTokens (template : Str) (ticketId : JSVal)
    (data : TicketRequest)
    (h1 : Plain ticketId.toStr.toList) (h2 : Plain (slotStr data.severity).toList)
    (h3 : Plain (slotStr data.category).toList)
    (h4 : '$' ∉ (slotStr data.description).toList) :
    createCardText template ticketId data = substituteTokens template ticketId data := by
  rw [createCardText_eq_passes template ticketId data h1.1 h2.1 h3.1 h4]
  unfold substituteTokens ticketRules
  have m2 : nameSeverity ∈ tokenNames := by simp [tokenNames]
  have m3 : nameCategory ∈ tokenNames := by simp [tokenNames]
  have m4 : nameDescription ∈ tokenNames := by simp [tokenNames]
  exact substGo_four _ _ _ _ _ _ _ _ template
    (mem_tokenNames_lbrace _ m2) (mem_tokenNames_lbrace _ m3) (mem_tokenNames_lbrace _ m4)
    h1.2.1 h1.2.2.1 h2.2.1 h2.2.2.1 h3.2.1 h3.2.2.1
    (h1.2.2.2 _ m2) (h1.2.2.2 _ m3) (h1.2.2.2 _ m4)
    (h2.2.2.2 _ m3) (h2.2.2.2 _ m4) (h3.2.2.2 _ m4)

/-- With plain values no placeholder is left in the one-pass substitution. -/
theorem substituteTokens_no_token (template : Str) (ticketId : JSVal) (data : TicketRequest)
    (h1 : Plain ticketId.toStr.toList) (h2 : Plain (slotStr data.severity).toList)
    (h3 : Plain (slotStr data.category).toList)
    (h4 : Plain (slotStr data.description).toList) (name : Str) (hn : name ∈ tokenNames) :
    ¬ tokOf name <:+: substituteTokens template ticketId data := by
  unfold substituteTokens
  have ok : RulesOK (ticketRules ticketId data) name := by
    have := rulesOK_snoc _ name nameDescription _
      (rulesOK_snoc _ name nameCategory _
        (rulesOK_snoc _ name nameSeverity _
          (rulesOK_snoc [] name nameTicketId _ (rulesOK_nil name)
            h1.2.1 h1.2.2.1 (h1.2.2.2 _ hn))
          h2.2.1 h2.2.2.1 (h2.2.2.2 _ hn))
        h3.2.1 h3.2.2.1 (h3.2.2.2 _ hn))
      h4.2.1 h4.2.2.1 (h4.2.2.2 _ hn)
    simpa [ticketRules] using this
  have hmem : ∃ v, (tokOf name, v) ∈ ticketRules ticketId data := by
    simp only [tokenNames, List.mem_cons, List.mem_singleton, List.not_mem_nil, or_false] at hn
    rcases hn with h | h | h | h <;> subst h
    · exact ⟨ticketId.toStr.toList, by unfold ticketRules; exact List.mem_cons_self _ _⟩
    · exact ⟨(slotStr data.severity).toList, by
        unfold ticketRules; exact List.mem_cons_of_mem _ (List.mem_cons_self _ _)⟩
    · exact ⟨(slotStr data.category).toList, by
        unfold ticketRules
        exact List.mem_cons_of_mem _ (List.mem_cons_of_mem _ (List.mem_cons_self _ _))⟩
    · exact ⟨(slotStr data.description).toList, by
        unfold ticketRules
        exact List.mem_cons_of_mem _ (List.mem_cons_of_mem _
          (List.mem_cons_of_mem _ (List.mem_cons_self _ _)))⟩
  exact not_infix_substGo _ name ok hmem template.length template (le_refl _)


theorem getSubstitution_of_dollarSafe (matched pre post repl : Str)
    (h : dollarSafe repl = true) : getSubstitution matched pre post repl = repl := by
  induction repl with
  | nil => simp [getSubstitution]
  | cons c r ih =>
    cases r with
    | nil => simp [getSubstitution]
    | cons d r =>
      simp only [dollarSafe, Bool.and_eq_true, Bool.not_eq_true', Bool.and_eq_false_iff,
        Bool.or_eq_false_iff, beq_eq_false_iff_ne, ne_eq] at h
      rw [getSubstitution, ih h.2]
      by_cases hc : c = '$'
      · rcases h.1 with h1 | ⟨⟨⟨h1, h2⟩, h3⟩, h4⟩
        · exact absurd hc h1
        · rw [if_pos hc, if_neg h1, if_neg h2, if_neg h3, if_neg h4]
      · rw [if_neg hc]

theorem jsReplaceGo_eq_substGo_of_id (tok repl : Str)
    (h : ∀ m pre post, getSubstitution m pre post repl = repl) (k : Nat) (pre s : Str) :
    jsReplaceGo tok repl k pre s = substGo [(tok, repl)] k s := by
  induction s generalizing k pre with
  | nil => cases k <;> simp [jsReplaceGo, substGo]
  | cons c cs ih =>
    cases k with
    | succ k => simp only [jsReplaceGo, substGo]; exact ih k _
    | zero =>
      simp only [jsReplaceGo, substGo, firstMatch_single]
      by_cases hp : tok.isPrefixOf (c :: cs) = true
      · simp only [hp, if_true]
        rw [h, ih]
      · simp only [hp]
        simp [ih]

theorem jsReplace_eq_substGo_of_dollarSafe (tok repl s : Str) (h : dollarSafe repl = true) :
    jsReplace tok repl s = substGo [(tok, repl)] 0 s :=
  jsReplaceGo_eq_substGo_of_id tok repl
    (fun m pre post => getSubstitution_of_dollarSafe m pre post repl h) 0 [] s

/-- Inside a value that does not overlap the placeholder no occurrence starts. -/
theorem no_match_inside (v t x s : Str) (h : ¬ Overlaps v t) (hs : s <:+ v) (hne : s ≠ []) :
    ¬ t <+: s ++ x := by
  intro hp
  rcases List.prefix_or_prefix_of_prefix hp (List.prefix_append s x) with h1 | h1
  · exact h (Or.inr (Or.inl (h1.isInfix.trans hs.isInfix)))
  · exact h (Or.inr (Or.inr (Or.inr ⟨s, (List.mem_tails s v).mpr hs, hne, h1⟩)))

/-- A pass for one placeholder copies a text in which no occurrence starts. -/
theorem substGo_single_append (t v w x : Str)
    (hw : ∀ s, s <:+ w → s ≠ [] → ¬ t <+: s ++ x) :
    substGo [(t, v)] 0 (w ++ x) = w ++ substGo [(t, v)] 0 x := by
  induction w with
  | nil => simp
  | cons c w ih =>
    have hm : firstMatch [(t, v)] (c :: (w ++ x)) = none := by
      rw [firstMatch_single, if_neg]
      intro hp
      exact hw (c :: w) (List.suffix_refl _) (List.cons_ne_nil _ _)
        (List.isPrefixOf_iff_prefix.mp hp)
    rw [List.cons_append, substGo_cons_none _ c (w ++ x) hm,
      ih (fun s hs hne => hw s (hs.trans (List.suffix_cons c w)) hne), List.cons_append]

/-- An end `u` of the placeholder seen at the head of the substituted text was already at
the head of the input, when no value overlaps the placeholder. -/
theorem prefix_of_prefix_substGo_gen (rules : List (Str × Str)) (t : Str)
    (hv : ∀ r ∈ rules, ¬ Overlaps r.2 t) (u : Str) :
    ∀ cs : Str, u <:+ t → u <+: substGo rules 0 cs → u <+: cs := by
  induction u with
  | nil => intro cs _ _; exact List.nil_prefix
  | cons b u ih =>
    intro cs hu h
    cases cs with
    | nil => simp [substGo] at h
    | cons c cs =>
      cases hm : firstMatch rules (c :: cs) with
      | none =>
        rw [substGo_cons_none rules c cs hm, List.cons_prefix_cons] at h
        rw [List.cons_prefix_cons]
        exact ⟨h.1, ih cs ((List.suffix_cons b u).trans hu) h.2⟩
      | some r =>
        exfalso
        have hmem : r ∈ rules := List.mem_of_find?_eq_some hm
        rw [substGo_cons_some rules c cs r hm] at h
        rcases List.prefix_or_prefix_of_prefix h (List.prefix_append r.2 _) with h1 | h1
        · exact hv r hmem (Or.inr (Or.inr (Or.inl
            ⟨b :: u, (List.mem_inits (b :: u) r.2).mpr h1, List.cons_ne_nil _ _, hu⟩)))
        · exact hv r hmem (Or.inl (h1.isInfix.trans hu.isInfix))

/-- One more pass over an already substituted text is the same as adding the rule, when
no earlier value overlaps the new placeholder. -/
theorem substGo_compose_gen (rules : List (Str × Str)) (name v : Str)
    (hname : lbrace ∉ name) (hopen : ∀ r ∈ rules, ∃ rest, r.1 = lbrace :: rest)
    (hv : ∀ r ∈ rules, ¬ Overlaps r.2 (tokOf name)) (n : Nat) :
    ∀ s : Str, s.length ≤ n →
      substGo [(tokOf name, v)] 0 (substGo rules 0 s)
        = substGo (rules ++ [(tokOf name, v)]) 0 s := by
  induction n with
  | zero =>
    intro s hs
    have : s = [] := List.length_eq_zero.mp (Nat.le_zero.mp hs)
    subst this
    simp [substGo]
  | succ n ih =>
    intro s hs
    cases s with
    | nil => simp [substGo]
    | cons c cs =>
      have hcs : cs.length ≤ n := by simpa using hs
      cases hm : firstMatch rules (c :: cs) with
      | some r =>
        have hmem : r ∈ rules := List.mem_of_find?_eq_some hm
        rw [substGo_cons_some rules c cs r hm,
          substGo_cons_some _ c cs r (firstMatch_append_some rules _ _ r hm),
          substGo_single_append (tokOf name) v r.2 _
            (fun s hs hne => no_match_inside r.2 (tokOf name) _ s (hv r hmem) hs hne),
          ih _ (le_trans (by simp) hcs)]
      | none =>
        by_cases hp : (tokOf name).isPrefixOf (c :: cs) = true
        · have hm2 : firstMatch (rules ++ [(tokOf name, v)]) (c :: cs) = some (tokOf name, v) := by
            rw [firstMatch_append_none rules _ _ hm, firstMatch_single, if_pos hp]
          rw [substGo_cons_none rules c cs hm, substGo_cons_some _ c cs _ hm2]
          obtain ⟨rest, hrest⟩ := List.isPrefixOf_iff_prefix.mp hp
          have hc : c = lbrace := by
            simp [tokOf] at hrest; exact hrest.1.symm
          have hcs2 : cs = (name ++ [rbrace]) ++ rest := by
            simp [tokOf] at hrest; simp [hrest.2]
          have hnl : lbrace ∉ name ++ [rbrace] := by
            simp [hname]; decide
          have hdrop : cs.drop ((tokOf name).length - 1) = rest := by
            rw [hcs2]; simp [tokOf]
          have hlen : rest.length ≤ n := by
            rw [← hdrop]; exact le_trans (by simp) hcs
          rw [hdrop, hcs2, substGo_append_of_not_mem rules hopen _ _ hnl, hc]
          have hm3 : firstMatch [(tokOf name, v)]
              (lbrace :: ((name ++ [rbrace]) ++ substGo rules 0 rest)) = some (tokOf name, v) := by
            rw [firstMatch_single, if_pos]
            rw [List.isPrefixOf_iff_prefix]
            exact ⟨substGo rules 0 rest, by simp [tokOf]⟩
          rw [substGo_cons_some _ _ _ _ hm3]
          have hdrop2 : ((name ++ [rbrace]) ++ substGo rules 0 rest).drop ((tokOf name).length - 1)
              = substGo rules 0 rest := by simp [tokOf]
          rw [hdrop2, ih rest hlen]
        · have hm2 : firstMatch (rules ++ [(tokOf name, v)]) (c :: cs) = none := by
            rw [firstMatch_append_none rules _ _ hm, firstMatch_single, if_neg hp]
          have hm3 : firstMatch [(tokOf name, v)] (substGo rules 0 (c :: cs)) = none := by
            rw [firstMatch_single, if_neg]
            intro hq
            apply hp
            rw [List.isPrefixOf_iff_prefix] at hq ⊢
            exact prefix_of_prefix_substGo_gen rules (tokOf name) hv (tokOf name) (c :: cs)
              (List.suffix_refl _) hq
          rw [substGo_cons_none rules c cs hm] at hm3 ⊢
          rw [substGo_cons_none _ c cs hm2, substGo_cons_none _ _ _ hm3, ih cs hcs]

theorem substGo_no_rules (k : Nat) (s : Str) : substGo [] k s = s.drop k := by
  induction s generalizing k with
  | nil => cases k <;> simp [substGo]
  | cons c cs ih =>
    cases k with
    | zero => simp [substGo, firstMatch, ih]
    | succ k => simp [substGo, ih]

/-- A rule that writes the placeholder itself can be left out. -/
theorem substGo_drop_fixed (rules : List (Str × Str)) (name : Str)
    (hname : lbrace ∉ name) (hopen : ∀ r ∈ rules, ∃ rest, r.1 = lbrace :: rest) (n : Nat) :
    ∀ s : Str, s.length ≤ n →
      substGo (rules ++ [(tokOf name, tokOf name)]) 0 s = substGo rules 0 s := by
  induction n with
  | zero =>
    intro s hs
    have : s = [] := List.length_eq_zero.mp (Nat.le_zero.mp hs)
    subst this
    simp [substGo]
  | succ n ih =>
    intro s hs
    cases s with
    | nil => simp [substGo]
    | cons c cs =>
      have hcs : cs.length ≤ n := by simpa using hs
      cases hm : firstMatch rules (c :: cs) with
      | some r =>
        rw [substGo_cons_some rules c cs r hm,
          substGo_cons_some _ c cs r (firstMatch_append_some rules _ _ r hm),
          ih _ (le_trans (by simp) hcs)]
      | none =>
        by_cases hp : (tokOf name).isPrefixOf (c :: cs) = true
        · have hm2 : firstMatch (rules ++ [(tokOf name, tokOf name)]) (c :: cs)
              = some (tokOf name, tokOf name) := by
            rw [firstMatch_append_none rules _ _ hm, firstMatch_single, if_pos hp]
          rw [substGo_cons_none rules c cs hm, substGo_cons_some _ c cs _ hm2]
          obtain ⟨rest, hrest⟩ := List.isPrefixOf_iff_prefix.mp hp
          have hc : c = lbrace := by
            simp [tokOf] at hrest; exact hrest.1.symm
          have hcs2 : cs = (name ++ [rbrace]) ++ rest := by
            simp [tokOf] at hrest; simp [hrest.2]
          have hnl : lbrace ∉ name ++ [rbrace] := by
            simp [hname]; decide
          have hdrop : cs.drop ((tokOf name).length - 1) = rest := by
            rw [hcs2]; simp [tokOf]
          have hlen : rest.length ≤ n := by
            rw [← hdrop]; exact le_trans (by simp) hcs
          rw [hdrop, ih rest hlen, hcs2, substGo_append_of_not_mem rules hopen _ _ hnl, hc]
          simp [tokOf]
        · have hm2 : firstMatch (rules ++ [(tokOf name, tokOf name)]) (c :: cs) = none := by
            rw [firstMatch_append_none rules _ _ hm, firstMatch_single, if_neg hp]
          rw [substGo_cons_none rules c cs hm, substGo_cons_none _ c cs hm2, ih cs hcs]

/-- One more pass is the same as adding the rule, when the pass writes its own
placeholder or no earlier value overlaps the placeholder. -/
theorem substGo_compose_fix (rules : List (Str × Str)) (name v : Str)
    (hname : lbrace ∉ name) (hopen : ∀ r ∈ rules, ∃ rest, r.1 = lbrace :: rest)
    (hv : v = tokOf name ∨ ∀ r ∈ rules, ¬ Overlaps r.2 (tokOf name)) (s : Str) :
    substGo [(tokOf name, v)] 0 (substGo rules 0 s)
      = substGo (rules ++ [(tokOf name, v)]) 0 s := by
  rcases hv with hv | hv
  · subst hv
    rw [substGo_drop_fixed rules name hname hopen s.length s (le_refl _)]
    have h := substGo_drop_fixed [] name hname (by simp) (substGo rules 0 s).length
      (substGo rules 0 s) (le_refl _)
    rw [List.nil_append] at h
    rw [h, substGo_no_rules]
    simp
  · exact substGo_compose_gen rules name v hname hopen hv s.length s (le_refl _)

/-- Four successive passes are one simultaneous pass when no value overlaps the
placeholder of a later pass that changes the text. -/
theorem substGo_four_gen (n1 n2 n3 n4 v1 v2 v3 v4 s : Str)
    (hn2 : lbrace ∉ n2) (hn3 : lbrace ∉ n3) (hn4 : lbrace ∉ n4)
    (h2 : v2 = tokOf n2 ∨ ¬ Overlaps v1 (tokOf n2))
    (h3 : v3 = tokOf n3 ∨ (¬ Overlaps v1 (tokOf n3) ∧ ¬ Overlaps v2 (tokOf n3)))
    (h4 : v4 = tokOf n4
      ∨ (¬ Overlaps v1 (tokOf n4) ∧ ¬ Overlaps v2 (tokOf n4) ∧ ¬ Overlaps v3 (tokOf n4))) :
    substGo [(tokOf n4, v4)] 0 (substGo [(tokOf n3, v3)] 0
        (substGo [(tokOf n2, v2)] 0 (substGo [(tokOf n1, v1)] 0 s)))
      = substGo [(tokOf n1, v1), (tokOf n2, v2), (tokOf n3, v3), (tokOf n4, v4)] 0 s := by
  have e2 := substGo_compose_fix [(tokOf n1, v1)] n2 v2 hn2
    (by intro r hr; simp at hr; subst hr; exact ⟨_, rfl⟩)
    (h2.imp id (fun h r hr => by simp at hr; subst hr; exact h)) s
  have e3 := substGo_compose_fix [(tokOf n1, v1), (tokOf n2, v2)] n3 v3 hn3
    (by intro r hr; simp at hr; rcases hr with hr | hr <;> subst hr <;> exact ⟨_, rfl⟩)
    (h3.imp id (fun h r hr => by
      simp at hr; rcases hr with hr | hr <;> subst hr
      · exact h.1
      · exact h.2)) s
  have e4 := substGo_compose_fix [(tokOf n1, v1), (tokOf n2, v2), (tokOf n3, v3)] n4 v4 hn4
    (by intro r hr; simp at hr; rcases hr with hr | hr | hr <;> subst hr <;> exact ⟨_, rfl⟩)
    (h4.imp id (fun h r hr => by
      simp at hr; rcases hr with hr | hr | hr <;> subst hr
      · exact h.1
      · exact h.2.1
      · exact h.2.2)) s
  simp only [List.nil_append, List.cons_append] at e2 e3 e4
  rw [e2, e3, e4]

/-- With values free of special patterns `createCard` parses the result of four literal
passes. -/
theorem createCardText_eq_passes_gen (template : Str) (ticketId : JSVal)
    (data : TicketRequest)
    (h1 : dollarSafe ticketId.toStr.toList = true)
    (h2 : dollarSafe (slotStr data.severity).toList = true)
    (h3 : dollarSafe (slotStr data.category).toList = true)
    (h4 : dollarSafe (slotStr data.description).toList = true) :
    createCardText template ticketId data
      = substGo [(tokOf nameDescription, (slotStr data.description).toList)] 0
          (substGo [(tokOf nameCategory, (slotStr data.category).toList)] 0
            (substGo [(tokOf nameSeverity, (slotStr data.severity).toList)] 0
              (substGo [(tokOf nameTicketId, ticketId.toStr.toList)] 0 template))) := by
  unfold createCardText
  rw [jsReplace_eq_substGo_of_dollarSafe _ _ _ h1, jsReplace_eq_substGo_of_dollarSafe _ _ _ h2,
    jsReplace_eq_substGo_of_dollarSafe _ _ _ h3, jsReplace_eq_substGo_of_dollarSafe _ _ _ h4]

/-- With values free of special patterns and clear of the later placeholders `createCard`
parses the template with the placeholders replaced where they stand. -/
theorem createCardText_eq_substituteTokens_gen (template : Str) (ticketId : JSVal)
    (data : TicketRequest)
    (h1 : dollarSafe ticketId.toStr.toList = true)
    (h2 : dollarSafe (slotStr data.severity).toList = true)
    (h3 : dollarSafe (slotStr data.category).toList = true)
    (h4 : dollarSafe (slotStr data.description).toList = true)
    (hc : ClearOfLater ticketId data) :
    createCardText template ticketId data = substituteTokens template ticketId data := by
  rw [createCardText_eq_passes_gen template ticketId data h1 h2 h3 h4]
  unfold substituteTokens ticketRules
  exact substGo_four_gen _ _ _ _ _ _ _ _ template
    (mem_tokenNames_lbrace _ (by simp [tokenNames]))
    (mem_tokenNames_lbrace _ (by simp [tokenNames]))
    (mem_tokenNames_lbrace _ (by simp [tokenNames]))
    hc.1 hc.2.1 hc.2.2

/-! ## The card renderer -/

/-- C5 (amended): when in no value a dollar sign is directly followed by a dollar sign,
an ampersand, a backtick or an apostrophe, the text `createCard` passes to the parser is
the result of four successive literal replace-all passes over the template (ticketId,
severity, category, description, in this order); when moreover no value overlaps the
placeholder of a later pass (it is not a piece of it, does not contain it, does not begin
with an end of it and does not end with a beginning of it), unless the value of that later
pass is its own placeholder, that text is the template with every occurrence of each of
the four placeholders replaced by its value and nothing else changed. -/
theorem createCardText_literal_substitution (template : Str) (ticketId : JSVal)
    (data : TicketRequest)
    (h1 : dollarSafe ticketId.toStr.toList = true)
    (h2 : dollarSafe (slotStr data.severity).toList = true)
    (h3 : dollarSafe (slotStr data.category).toList = true)
    (h4 : dollarSafe (slotStr data.description).toList = true) :
    createCardText template ticketId data
        = substGo [(tokOf nameDescription, (slotStr data.description).toList)] 0
            (substGo [(tokOf nameCategory, (slotStr data.category).toList)] 0
              (substGo [(tokOf nameSeverity, (slotStr data.severity).toList)] 0
                (substGo [(tokOf nameTicketId, ticketId.toStr.toList)] 0 template)))
      ∧ (ClearOfLater ticketId data →
          createCardText template ticketId data = substituteTokens template ticketId data) :=
  ⟨createCardText_eq_passes_gen template ticketId data h1 h2 h3 h4,
    createCardText_eq_substituteTokens_gen template ticketId data h1 h2 h3 h4⟩

/-- C5, witness: identifier 42, severity "high", the category "it" (a piece of the name
severity, whose pass comes earlier) and a description with a dollar sign before a digit. -/
theorem createCardText_literal_substitution_witness :
    (dollarSafe (JSVal.num 42).toStr.toList = true
      ∧ dollarSafe (slotStr (some "high")).toList = true
      ∧ dollarSafe (slotStr (some "it")).toList = true
      ∧ dollarSafe (slotStr (some "charged $50 twice")).toList = true
      ∧ ClearOfLater (.num 42) ⟨some "it", some "high", some "charged $50 twice"⟩)
    ∧ createCardText sampleTemplate (.num 42)
          ⟨some "it", some "high", some "charged $50 twice"⟩
        = substituteTokens sampleTemplate (.num 42)
            ⟨some "it", some "high", some "charged $50 twice"⟩ :=
  ⟨by decide,
    (createCardText_literal_substitution sampleTemplate (.num 42)
      ⟨some "it", some "high", some "charged $50 twice"⟩
      (by decide) (by decide) (by decide) (by decide)).2 (by decide)⟩

/-- C5, counterexample: the text passed to the parser is not always the template with the
placeholders replaced by the literal values.  In a description `$$` is written as `$`,
`$&` as the placeholder, a dollar sign with a backtick as the template text before the
placeholder and a dollar sign with an apostrophe as the text after it.  A category that
reads `{description}` is itself replaced by the description; so is the placeholder that a
category builds with the template around it, when the category is a piece of the
placeholder (`crip`, or the empty text), ends with a beginning of it (`see {des`) or begins
with an end of it (`tion} x`). -/
theorem createCardText_not_literal :
    createCardText "\x7bdescription\x7d".toList (.num 42)
        ⟨some "hardware", some "normal", some "costs $$5"⟩ = "costs $5".toList
    ∧ substituteTokens "\x7bdescription\x7d".toList (.num 42)
        ⟨some "hardware", some "normal", some "costs $$5"⟩ = "costs $$5".toList
    ∧ createCardText "\x7bdescription\x7d".toList (.num 42)
        ⟨some "hardware", some "normal", some "see $&"⟩ = "see \x7bdescription\x7d".toList
    ∧ createCardText "a\x7bdescription\x7d".toList (.num 42)
        ⟨some "hardware", some "normal", some "$\x60"⟩ = "aa".toList
    ∧ createCardText "\x7bdescription\x7db".toList (.num 42)
        ⟨some "hardware", some "normal", some "$'"⟩ = "bb".toList
    ∧ createCardText "\x7bcategory\x7d".toList (.num 42)
        ⟨some "\x7bdescription\x7d", some "normal", some "no paper"⟩ = "no paper".toList
    ∧ substituteTokens "\x7bcategory\x7d".toList (.num 42)
        ⟨some "\x7bdescription\x7d", some "normal", some "no paper"⟩
        = "\x7bdescription\x7d".toList
    ∧ createCardText "\x7bdes\x7bcategory\x7dtion\x7d".toList (.num 42)
        ⟨some "crip", some "normal", some "no paper"⟩ = "no paper".toList
    ∧ substituteTokens "\x7bdes\x7bcategory\x7dtion\x7d".toList (.num 42)
        ⟨some "crip", some "normal", some "no paper"⟩ = "\x7bdescription\x7d".toList
    ∧ createCardText "\x7bdes\x7bcategory\x7dcription\x7d".toList (.num 42)
        ⟨some "", some "normal", some "no paper"⟩ = "no paper".toList
    ∧ substituteTokens "\x7bdes\x7bcategory\x7dcription\x7d".toList (.num 42)
        ⟨some "", some "normal", some "no paper"⟩ = "\x7bdescription\x7d".toList
    ∧ createCardText "\x7bcategory\x7dcription\x7d".toList (.num 42)
        ⟨some "see \x7bdes", some "normal", some "no paper"⟩ = "see no paper".toList
    ∧ substituteTokens "\x7bcategory\x7dcription\x7d".toList (.num 42)
        ⟨some "see \x7bdes", some "normal", some "no paper"⟩
        = "see \x7bdescription\x7d".toList
    ∧ createCardText "\x7bdescrip\x7bcategory\x7d".toList (.num 42)
        ⟨some "tion\x7d x", some "normal", some "no paper"⟩ = "no paper x".toList
    ∧ substituteTokens "\x7bdescrip\x7bcategory\x7d".toList (.num 42)
        ⟨some "tion\x7d x", some "normal", some "no paper"⟩
        = "\x7bdescription\x7d x".toList
    ∧ ¬ ∀ (template : Str) (ticketId : JSVal) (data : TicketRequest),
        createCardText template ticketId data = substituteTokens template ticketId data := by
  refine ⟨by decide, by decide, by decide, by decide, by decide, by decide, by decide,
    by decide, by decide, by decide, by decide, by decide, by decide, by decide, by decide, ?_⟩
  intro h
  have h1 := h "\x7bdescription\x7d".toList (.num 42)
    ⟨some "hardware", some "normal", some "costs $$5"⟩
  revert h1
  decide

/-- C6 (amended): for every template and for values that contain no dollar sign and no
brace and are not a piece of a placeholder name (in particular are not empty), as in the
example with identifier 42, the text `createCard` produces before parsing contains none of
the four placeholders and is the template with each placeholder replaced, where it stands,
by its value. -/
theorem createCardText_plain_values (template : Str) (ticketId : JSVal)
    (data : TicketRequest)
    (h1 : Plain ticketId.toStr.toList) (h2 : Plain (slotStr data.severity).toList)
    (h3 : Plain (slotStr data.category).toList)
    (h4 : Plain (slotStr data.description).toList) :
    (∀ name ∈ tokenNames, ¬ tokOf name <:+: createCardText template ticketId data)
      ∧ createCardText template ticketId data = substituteTokens template ticketId data := by
  have e := createCardText_eq_substituteTokens template ticketId data h1 h2 h3 h4.1
  refine ⟨fun name hn => ?_, e⟩
  rw [e]
  exact substituteTokens_no_token template ticketId data h1 h2 h3 h4 name hn

/-- C6, witness: identifier 42 and the ticket network / high / no wifi. -/
theorem createCardText_plain_values_witness :
    (Plain (JSVal.num 42).toStr.toList ∧ Plain (slotStr sampleTicket.severity).toList
      ∧ Plain (slotStr sampleTicket.category).toList
      ∧ Plain (slotStr sampleTicket.description).toList)
    ∧ (∀ name ∈ tokenNames,
        ¬ tokOf name <:+: createCardText sampleTemplate (.num 42) sampleTicket)
    ∧ createCardText sampleTemplate (.num 42) sampleTicket
        = substituteTokens sampleTemplate (.num 42) sampleTicket :=
  ⟨by decide,
    createCardText_plain_values sampleTemplate (.num 42) sampleTicket
      (by decide) (by decide) (by decide) (by decide)⟩

/-- C6, counterexample: values without placeholder and without dollar sign do not keep
every template free of placeholders.  With the template `{{category}tegory}` and the
category `ca` the text before parsing is `{category}`. -/
theorem createCardText_leftover_token :
    createCardText "\x7b\x7bcategory\x7dtegory\x7d".toList (.num 42)
        ⟨some "ca", some "high", some "no wifi"⟩ = "\x7bcategory\x7d".toList
    ∧ ¬ ∀ (template : Str) (ticketId : JSVal) (data : TicketRequest),
        TokenFree ticketId.toStr.toList → TokenFree (slotStr data.severity).toList →
        TokenFree (slotStr data.category).toList →
        TokenFree (slotStr data.description).toList →
        (∀ name ∈ tokenNames, ¬ tokOf name <:+: createCardText template ticketId data)
          ∧ createCardText template ticketId data
              = substituteTokens template ticketId data := by
  refine ⟨by decide, ?_⟩
  intro h
  have h1 := (h "\x7b\x7bcategory\x7dtegory\x7d".toList (.num 42)
    ⟨some "ca", some "high", some "no wifi"⟩ (by decide) (by decide) (by decide)
    (by decide)).1 nameCategory (by decide)
  revert h1
  decide

/-- The text built for the round-trip example. -/
theorem sampleCard_text :
    String.mk (createCardText sampleTemplate (.num 42) sampleTicket)
      = "\x7b\"id\":\"42\",\"facts\":[\"high\",\"network\"],\"text\":\"no wifi\"\x7d" := by
  decide

/-! ## The `SubmitTicket` dialog -/

/-- What the waterfall has done when the confirmation prompt is issued. -/
theorem runToConfirm_ok (text : String) (entities : List Entity) (s c : String)
    (acts : List Action) (dd : DialogData)
    (h : runToConfirm text entities s c = .ok (acts, dd)) :
    ∃ cat sev, firstValue (findEntity entities "category") = .ok cat
      ∧ firstValue (findEntity entities "severity") = .ok sev
      ∧ dd = ⟨some (slotOr cat c), some (slotOr sev s), some text⟩
      ∧ acts.filter Action.isPost = []
      ∧ acts.getLast? = some (.promptConfirm (confirmMessage dd) .button) := by
  unfold runToConfirm step1 at h
  cases hc : firstValue (findEntity entities "category") with
  | error e => simp [hc] at h
  | ok cat =>
    cases hs : firstValue (findEntity entities "severity") with
    | error e => simp [hc, hs] at h
    | ok sev =>
      refine ⟨cat, sev, rfl, rfl, ?_⟩
      rcases cat with _ | cv <;> rcases sev with _ | sv
      · simp [hc, hs, step2, step3, slotTruthy, DialogData.empty] at h
        obtain ⟨h1, h2⟩ := h
        subst h1 h2
        by_cases e1 : s = "" <;> by_cases e2 : c = "" <;>
          simp [slotOr, Action.isPost, e1, e2, slotTruthy]
      · by_cases e3 : sv = ""
        · subst e3
          simp [hc, hs, step2, step3, slotTruthy, DialogData.empty] at h
          obtain ⟨h1, h2⟩ := h
          subst h1 h2
          simp [slotOr, Action.isPost, slotTruthy]
        · simp [hc, hs, step2, step3, slotTruthy, DialogData.empty, e3] at h
          obtain ⟨h1, h2⟩ := h
          subst h1 h2
          simp [slotOr, Action.isPost, slotTruthy, e3]
      · by_cases e4 : cv = ""
        · subst e4
          simp [hc, hs, step2, step3, slotTruthy, DialogData.empty] at h
          obtain ⟨h1, h2⟩ := h
          subst h1 h2
          simp [slotOr, Action.isPost, slotTruthy]
        · simp [hc, hs, step2, step3, slotTruthy, DialogData.empty, e4] at h
          obtain ⟨h1, h2⟩ := h
          subst h1 h2
          simp [slotOr, Action.isPost, slotTruthy, e4]
      · by_cases e3 : sv = "" <;> by_cases e4 : cv = ""
        · subst e3 e4
          simp [hc, hs, step2, step3, slotTruthy, DialogData.empty] at h
          obtain ⟨h1, h2⟩ := h
          subst h1 h2
          simp [slotOr, Action.isPost, slotTruthy]
        · subst e3
          simp [hc, hs, step2, step3, slotTruthy, DialogData.empty, e4] at h
          obtain ⟨h1, h2⟩ := h
          subst h1 h2
          simp [slotOr, Action.isPost, slotTruthy, e4]
        · subst e4
          simp [hc, hs, step2, step3, slotTruthy, DialogData.empty, e3] at h
          obtain ⟨h1, h2⟩ := h
          subst h1 h2
          simp [slotOr, Action.isPost, slotTruthy, e3]
        · simp [hc, hs, step2, step3, slotTruthy, DialogData.empty, e3, e4] at h
          obtain ⟨h1, h2⟩ := h
          subst h1 h2
          simp [slotOr, Action.isPost, slotTruthy, e3, e4]

/-- The waterfall reaches the confirmation prompt whenever the two entity look-ups of the
first step do not throw. -/
theorem runToConfirm_returns (text : String) (entities : List Entity) (s c : String)
    (cat sev : Option String)
    (hc : firstValue (findEntity entities "category") = .ok cat)
    (hs : firstValue (findEntity entities "severity") = .ok sev) :
    ∃ acts, runToConfirm text entities s c
      = .ok (acts, ⟨some (slotOr cat c), some (slotOr sev s), some text⟩) := by
  unfold runToConfirm step1
  rcases cat with _ | cv <;> rcases sev with _ | sv
  · simp [hc, hs, step2, step3, slotTruthy, DialogData.empty, slotOr]
  · by_cases e3 : sv = ""
    · subst e3
      simp [hc, hs, step2, step3, slotTruthy, DialogData.empty, slotOr]
    · simp [hc, hs, step2, step3, slotTruthy, DialogData.empty, slotOr, e3]
  · by_cases e4 : cv = ""
    · subst e4
      simp [hc, hs, step2, step3, slotTruthy, DialogData.empty, slotOr]
    · simp [hc, hs, step2, step3, slotTruthy, DialogData.empty, slotOr, e4]
  · by_cases e3 : sv = "" <;> by_cases e4 : cv = ""
    · subst e3 e4
      simp [hc, hs, step2, step3, slotTruthy, DialogData.empty, slotOr]
    · subst e3
      simp [hc, hs, step2, step3, slotTruthy, DialogData.empty, slotOr, e4]
    · subst e4
      simp [hc, hs, step2, step3, slotTruthy, DialogData.empty, slotOr, e3]
    · simp [hc, hs, step2, step3, slotTruthy, DialogData.empty, slotOr, e3, e4]

theorem slotOr_ne_empty (extracted : Option String) (reply : String) (h : reply ≠ "") :
    slotOr extracted reply ≠ "" := by
  unfold slotOr
  rcases extracted with _ | v
  · exact h
  · by_cases e : v = ""
    · simp [e, h]
    · simp [e]

/-- C1 (amended): a `SubmitTicket` run that ends with an affirmative confirmation issues
exactly one create-ticket call; its body has description = the triggering text, severity =
the severity taken from the entities in step 1 if a non-empty one was stored and otherwise
the choice reply, category = the category taken from the entities if a non-empty one was
stored and otherwise the text reply; the call is followed by the end of the dialog.  For
the text "I cannot print" without entities and the replies "normal" and "hardware" the bot
prompts for severity, for category, for confirmation, and posts
{category: "hardware", severity: "normal", description: "I cannot print"}. -/
theorem runSubmitTicket_confirmed :
    (∀ (text : String) (entities : List Entity) (s c : String) (acts : List Action),
      runSubmitTicket text entities s c true = .ok acts →
      ∃ cat sev, firstValue (findEntity entities "category") = .ok cat
        ∧ firstValue (findEntity entities "severity") = .ok sev
        ∧ acts.filter Action.isPost
            = [.post "/api/tickets" ⟨some (slotOr cat c), some (slotOr sev s), some text⟩]
        ∧ acts.getLast? = some (.endDialog none))
    ∧ runSubmitTicket "I cannot print" [] "normal" "hardware" true
        = .ok [.promptChoice "which is the severity of this problem?"
                ["high", "normal", "low"] .button,
            .promptText
              "Which would be the category for this ticket (software, hardware, network, and so on)?",
            .promptConfirm ("Great! I'm going to create a \"normal\" severity ticket in the "
              ++ "\"hardware\" category. The description I will use is \"I cannot print\". "
              ++ "Can you please confirm that this information is correct?") .button,
            .post "/api/tickets" ⟨some "hardware", some "normal", some "I cannot print"⟩,
            .endDialog none] := by
  refine ⟨?_, by rfl⟩
  intro text entities s c acts h
  unfold runSubmitTicket at h
  cases hr : runToConfirm text entities s c with
  | error e => simp [hr] at h
  | ok p =>
    obtain ⟨acts0, dd⟩ := p
    obtain ⟨cat, sev, hc, hs, hdd, hpost, _⟩ := runToConfirm_ok text entities s c acts0 dd hr
    simp only [hr, step4, if_true, Except.ok.injEq] at h
    subst h
    refine ⟨cat, sev, hc, hs, ?_, ?_⟩
    · rw [List.filter_append, hpost, hdd]
      simp [Action.isPost]
    · simp

/-- C1, witness: the run of the end-to-end scenario. -/
theorem runSubmitTicket_confirmed_witness :
    ∃ acts, runSubmitTicket "I cannot print" [] "normal" "hardware" true = .ok acts
      ∧ ∃ cat sev, firstValue (findEntity [] "category") = .ok cat
        ∧ firstValue (findEntity [] "severity") = .ok sev
        ∧ acts.filter Action.isPost
            = [.post "/api/tickets"
                ⟨some (slotOr cat "hardware"), some (slotOr sev "normal"),
                  some "I cannot print"⟩]
        ∧ acts.getLast? = some (.endDialog none) :=
  ⟨_, rfl, runSubmitTicket_confirmed.1 "I cannot print" [] "normal" "hardware" _ rfl⟩

/-- C1, counterexample: the posted severity is not always the one stored in step 1.  When
the severity entity resolves to the empty string, step 1 stores it, the choice prompt is
issued all the same and the posted severity is the reply. -/
theorem runSubmitTicket_stored_empty :
    (step1 DialogData.empty "I cannot print" [⟨"severity", "", some ⟨some [""]⟩⟩]).toOption.map
        (fun r => r.dialogData.severity) = some (some "")
    ∧ runSubmitTicket "I cannot print" [⟨"severity", "", some ⟨some [""]⟩⟩] "normal"
        "hardware" true
        = .ok [.promptChoice severityQuestion ["high", "normal", "low"] .button,
            .promptText categoryQuestion,
            .promptConfirm (confirmMessage
              ⟨some "hardware", some "normal", some "I cannot print"⟩) .button,
            .post "/api/tickets" ⟨some "hardware", some "normal", some "I cannot print"⟩,
            .endDialog none]
    ∧ ¬ ∀ (text : String) (entities : List Entity) (s c : String) (acts : List Action)
        (r1 : StepResult),
        step1 DialogData.empty text entities = .ok r1 →
        runSubmitTicket text entities s c true = .ok acts →
        acts.filter Action.isPost
          = [.post "/api/tickets"
              ⟨some (r1.dialogData.category.getD c), some (r1.dialogData.severity.getD s),
                some text⟩] := by
  refine ⟨by rfl, by rfl, ?_⟩
  intro h
  have h1 := h "I cannot print" [⟨"severity", "", some ⟨some [""]⟩⟩] "normal" "hardware" _ _
    rfl rfl
  simp [Action.isPost, List.filter, step3, DialogData.empty, slotTruthy] at h1

/-- C2: when the confirmation reply is false, the final step, whatever the slots hold,
makes no ticket-creation call, sends no card, and ends the dialog with the cancellation
notice. -/
theorem step4_declined (dd : DialogData) :
    (step4 dd (some false)).out
        = [.endDialog (some "Ok. The ticket was not created. You can start again if you want.")]
      ∧ (step4 dd (some false)).control = .done
      ∧ (step4 dd (some false)).out.filter Action.isPost = []
      ∧ (step4 dd (some false)).out.filter Action.isCard = [] := by
  refine ⟨rfl, rfl, rfl, rfl⟩

/-- C3: in every run of the `SubmitTicket` dialog, for every triggering message, entity
list and replies that the recogniser and the prompts deliver, whenever the yes/no
confirmation prompt is issued in step 3, all three slots category, severity and
description are non-empty. -/
theorem runToConfirm_slots_set (text : String) (entities : List Entity) (s c : String)
    (acts : List Action) (dd : DialogData) (hd : Delivered text s c)
    (h : runToConfirm text entities s c = .ok (acts, dd)) :
    acts.getLast? = some (.promptConfirm (confirmMessage dd) .button)
      ∧ slotTruthy dd.category = true ∧ slotTruthy dd.severity = true
      ∧ slotTruthy dd.description = true
      ∧ ∃ cat sev, dd = ⟨some cat, some sev, some text⟩ ∧ cat ≠ "" ∧ sev ≠ "" := by
  obtain ⟨ht, hs, hc⟩ := hd
  have hs2 : s ≠ "" := by
    intro e
    subst e
    revert hs
    decide
  obtain ⟨cat, sev, _, _, hdd, _, hlast⟩ := runToConfirm_ok text entities s c acts dd h
  have h1 := slotOr_ne_empty cat c hc
  have h2 := slotOr_ne_empty sev s hs2
  refine ⟨hlast, ?_, ?_, ?_, slotOr cat c, slotOr sev s, hdd, h1, h2⟩
  · rw [hdd]; simpa [slotTruthy] using h1
  · rw [hdd]; simpa [slotTruthy] using h2
  · rw [hdd]; simpa [slotTruthy] using ht

/-- C3, witness: the end-to-end scenario up to the confirmation prompt. -/
theorem runToConfirm_slots_set_witness :
    Delivered "I cannot print" "normal" "hardware"
    ∧ ∃ acts dd, runToConfirm "I cannot print" [] "normal" "hardware" = .ok (acts, dd)
      ∧ acts.getLast? = some (.promptConfirm (confirmMessage dd) .button)
      ∧ slotTruthy dd.category = true ∧ slotTruthy dd.severity = true
      ∧ slotTruthy dd.description = true
      ∧ ∃ cat sev, dd = ⟨some cat, some sev, some "I cannot print"⟩ ∧ cat ≠ "" ∧ sev ≠ "" :=
  ⟨by decide, _, _, rfl,
    runToConfirm_slots_set "I cannot print" [] "normal" "hardware" _ _ (by decide) rfl⟩

/-- C9 (amended): when the first severity entity of the intent has a non-empty first
resolved value (and the category look-up does not throw), step 1 stores that value, sends
no severity choice prompt and calls `next()`; step 2 then behaves the same whatever reply
it is handed, so no severity reply is read, and the run does not depend on the choice
reply. -/
theorem step1_severity_resolved (dd0 : DialogData) (text : String) (entities : List Entity)
    (e : Entity) (v : String) (vs : List String) (cat : Option String)
    (hf : findEntity entities "severity" = some e)
    (hr : e.resolution = some ⟨some (v :: vs)⟩) (hv : v ≠ "")
    (hc : firstValue (findEntity entities "category") = .ok cat) :
    ∃ dd, step1 dd0 text entities = .ok ⟨dd, [], .next⟩
      ∧ dd.severity = some v
      ∧ (∀ result, step2 dd result = step2 dd none)
      ∧ ∀ s1 s2 c, runToConfirm text entities s1 c = runToConfirm text entities s2 c := by
  have hs : firstValue (findEntity entities "severity") = .ok (some v) := by
    rw [hf]; simp [firstValue, hr]
  refine ⟨⟨(match cat with
      | some cv => some cv
      | none => dd0.category), some v, some text⟩, ?_, rfl, ?_, ?_⟩
  · unfold step1
    rcases cat with _ | cv <;> simp [hc, hs, slotTruthy, hv]
  · intro result
    simp [step2, slotTruthy, hv]
  · intro s1 s2 c
    unfold runToConfirm step1
    rcases cat with _ | cv <;> simp [hc, hs, slotTruthy, hv]

/-- C9, witness: a severity entity resolved to "high". -/
theorem step1_severity_resolved_witness :
    findEntity [⟨"severity", "urgent", some ⟨some ["high"]⟩⟩] "severity"
        = some ⟨"severity", "urgent", some ⟨some ["high"]⟩⟩
    ∧ "high" ≠ ""
    ∧ firstValue (findEntity [⟨"severity", "urgent", some ⟨some ["high"]⟩⟩] "category")
        = .ok none
    ∧ ∃ dd, step1 DialogData.empty "my screen is broken"
          [⟨"severity", "urgent", some ⟨some ["high"]⟩⟩] = .ok ⟨dd, [], .next⟩
      ∧ dd.severity = some "high"
      ∧ (∀ result, step2 dd result = step2 dd none)
      ∧ ∀ s1 s2 c,
          runToConfirm "my screen is broken" [⟨"severity", "urgent", some ⟨some ["high"]⟩⟩] s1 c
            = runToConfirm "my screen is broken"
                [⟨"severity", "urgent", some ⟨some ["high"]⟩⟩] s2 c :=
  ⟨by decide, by decide, rfl,
    step1_severity_resolved DialogData.empty "my screen is broken"
      [⟨"severity", "urgent", some ⟨some ["high"]⟩⟩]
      ⟨"severity", "urgent", some ⟨some ["high"]⟩⟩ "high" [] none (by decide) rfl (by decide)
      rfl⟩

/-- C9, counterexample: a severity entity with a resolved value does not always suppress
the choice prompt.  The prompt is sent when the resolved value is the empty string, and
when an earlier severity entity has an empty resolution list. -/
theorem step1_prompts_despite_severity :
    step1 DialogData.empty "my screen is broken" [⟨"severity", "", some ⟨some [""]⟩⟩]
        = .ok ⟨⟨none, some "", some "my screen is broken"⟩,
            [.promptChoice severityQuestion ["high", "normal", "low"] .button], .suspend⟩
    ∧ step1 DialogData.empty "my screen is broken"
        [⟨"severity", "bad", some ⟨some []⟩⟩, ⟨"severity", "urgent", some ⟨some ["high"]⟩⟩]
        = .ok ⟨⟨none, none, some "my screen is broken"⟩,
            [.promptChoice severityQuestion ["high", "normal", "low"] .button], .suspend⟩
    ∧ ¬ ∀ (text : String) (entities : List Entity),
        (∃ e ∈ entities, e.type = "severity"
          ∧ ∃ v vs, e.resolution = some ⟨some (v :: vs)⟩) →
        (step1 DialogData.empty text entities).toOption.map
          (fun r => (r.out.length, r.control)) = some (0, .next) := by
  refine ⟨by rfl, by rfl, ?_⟩
  intro h
  have h1 := h "my screen is broken" [⟨"severity", "", some ⟨some [""]⟩⟩]
    ⟨_, List.mem_singleton.mpr rfl, rfl, "", [], rfl⟩
  revert h1
  decide

/-- C7, failing input: step 1 throws a TypeError on a category entity without a
`resolution` member, and on a severity entity whose `resolution` has no `values`, where
the claim has the slot left unset. -/
theorem step1_throws_without_resolution :
    step1 DialogData.empty "I cannot print" [⟨"category", "hardware", none⟩]
        = .error .typeError
    ∧ step1 DialogData.empty "I cannot print" [⟨"severity", "high", some ⟨none⟩⟩]
        = .error .typeError := by
  refine ⟨by rfl, by rfl⟩

/-! ## The callback of the create-ticket call -/

theorem createdMessage_ne_retryLater (ticketId : JSVal) : createdMessage ticketId ≠ retryLater := by
  intro h
  have h1 := congrArg (fun s : String => s.data.head?) h
  simp only [createdMessage, retryLater, String.data_append] at h1
  simp at h1

/-- After a reply without error and with an identifier other than -1 the first message is
the ticket-created one, whether or not the card can be built. -/
theorem postCallback_head (env : Env) (ticketId : JSVal) (data : TicketRequest)
    (h : looseEqMinusOne ticketId = false) :
    (postCallback env none ticketId data).out.head? = some (.send (createdMessage ticketId)) := by
  cases hcard : createCard env ticketId data <;> simp [postCallback, h, hcard]

/-- C4 (amended): on a transport error or an identifier equal to -1 the callback sends
exactly one message, the retry-later text, sends no card and does nothing else; otherwise
it sends the ticket-created message with the literal identifier and then, when
`createCard(identifier, request)` returns a card for the posted request data, one message
whose attachment is that card; when `createCard` throws, the ticket-created message has
been sent, no card message follows and the exception leaves the callback. -/
theorem postCallback_branches (env : Env) (err : Option String) (ticketId : JSVal)
    (data : TicketRequest) :
    ((err.isSome = true ∨ looseEqMinusOne ticketId = true) →
      (postCallback env err ticketId data).out
          = [.send "Something went wrong while I was saving your ticket. Please try again later."]
        ∧ (postCallback env err ticketId data).thrown = none)
    ∧ (err = none → looseEqMinusOne ticketId = false →
        (∀ card, createCard env ticketId data = .ok card →
          (postCallback env err ticketId data).out
              = [.send ("Awesome! Your ticket has been created with the number "
                    ++ ticketId.toStr ++ "."),
                 .sendCard "application/vnd.microsoft.card.adaptive" card]
            ∧ (postCallback env err ticketId data).thrown = none)
        ∧ (∀ e, createCard env ticketId data = .error e →
          (postCallback env err ticketId data).out
              = [.send ("Awesome! Your ticket has been created with the number "
                    ++ ticketId.toStr ++ ".")]
            ∧ (postCallback env err ticketId data).thrown = some e)) := by
  refine ⟨?_, ?_⟩
  · intro h
    have hb : (err.isSome || looseEqMinusOne ticketId) = true := by
      rcases h with h | h <;> simp [h]
    simp [postCallback, hb, retryLater]
  · intro h1 h2
    subst h1
    refine ⟨?_, ?_⟩
    · intro card hcard
      simp [postCallback, h2, hcard, createdMessage, adaptiveCard]
    · intro e he
      simp [postCallback, h2, he, createdMessage]

/-- C4, witness: a refused connection, and a reply 42 for which the card is built. -/
theorem postCallback_branches_witness :
    ((some "ECONNREFUSED" : Option String).isSome = true ∨ looseEqMinusOne (.num 42) = true)
    ∧ (postCallback ⟨.ok sampleTemplate, fun _ => .ok (.obj [])⟩ (some "ECONNREFUSED")
        (.num 42) sampleTicket).out
        = [.send "Something went wrong while I was saving your ticket. Please try again later."]
    ∧ looseEqMinusOne (.num 42) = false
    ∧ createCard ⟨.ok sampleTemplate, fun _ => .ok (.obj [])⟩ (.num 42) sampleTicket
        = .ok (.obj [])
    ∧ (postCallback ⟨.ok sampleTemplate, fun _ => .ok (.obj [])⟩ none (.num 42)
        sampleTicket).out
        = [.send ("Awesome! Your ticket has been created with the number "
              ++ (JSVal.num 42).toStr ++ "."),
           .sendCard "application/vnd.microsoft.card.adaptive" (.obj [])] :=
  ⟨Or.inl rfl,
    ((postCallback_branches ⟨.ok sampleTemplate, fun _ => .ok (.obj [])⟩ (some "ECONNREFUSED")
      (.num 42) sampleTicket).1 (Or.inl rfl)).1,
    by decide, rfl,
    (((postCallback_branches ⟨.ok sampleTemplate, fun _ => .ok (.obj [])⟩ none (.num 42)
      sampleTicket).2 rfl (by decide)).1 (.obj []) rfl).1⟩

/-- C4, counterexample: after a successful reply the card message is not always sent.
When the template cannot be read, `createCard` throws and the ticket-created message is
the only one. -/
theorem postCallback_card_missing :
    (postCallback ⟨.error .ioError, fun _ => .error .syntaxError⟩ none (.num 42)
        sampleTicket).out.filter Action.isCard = []
    ∧ (postCallback ⟨.error .ioError, fun _ => .error .syntaxError⟩ none (.num 42)
        sampleTicket).thrown = some .ioError
    ∧ ¬ ∀ (env : Env) (err : Option String) (ticketId : JSVal) (data : TicketRequest),
        err = none → looseEqMinusOne ticketId = false →
        ∃ card, createCard env ticketId data = .ok card
          ∧ (postCallback env err ticketId data).out
              = [.send (createdMessage ticketId), .sendCard adaptiveCard card] := by
  refine ⟨by rfl, by rfl, ?_⟩
  intro h
  obtain ⟨card, h1, _⟩ := h ⟨.error .ioError, fun _ => .error .syntaxError⟩ none (.num 42)
    sampleTicket rfl rfl
  simp [createCard] at h1

/-- C8 (amended): after a reply without transport error the callback treats the returned
value as a ticket identifier, that is, sends the ticket-created message, followed by the
card whenever `createCard` returns one, exactly when the value is not equal to -1 under
`==` (the number -1 or a string that converts to it); when it is equal, the retry-later
text is the only message.  Truthiness is not tested, so the falsy values 0, the empty
string, null and undefined are announced as created tickets. -/
theorem postCallback_announces (env : Env) (ticketId : JSVal) (data : TicketRequest) :
    (looseEqMinusOne ticketId = true →
        (postCallback env none ticketId data).out = [.send retryLater]
          ∧ (postCallback env none ticketId data).thrown = none)
    ∧ (looseEqMinusOne ticketId = false →
        (∀ card, createCard env ticketId data = .ok card →
          (postCallback env none ticketId data).out
              = [.send (createdMessage ticketId), .sendCard adaptiveCard card]
            ∧ (postCallback env none ticketId data).thrown = none)
        ∧ (∀ e, createCard env ticketId data = .error e →
          (postCallback env none ticketId data).out = [.send (createdMessage ticketId)]
            ∧ (postCallback env none ticketId data).thrown = some e))
    ∧ (Action.send (createdMessage ticketId) ∈ (postCallback env none ticketId data).out
        ↔ looseEqMinusOne ticketId = false)
    ∧ (∀ card, createCard env ticketId data = .ok card →
        (Action.sendCard adaptiveCard card ∈ (postCallback env none ticketId data).out
          ↔ looseEqMinusOne ticketId = false))
    ∧ looseEqMinusOne (.num 0) = false ∧ looseEqMinusOne (.str "") = false
    ∧ looseEqMinusOne .null = false ∧ looseEqMinusOne .undefined = false := by
  refine ⟨?_, ?_, ⟨?_, ?_⟩, ?_, by decide, by decide, by decide, by decide⟩
  · intro h
    simp [postCallback, h]
  · intro h
    refine ⟨?_, ?_⟩
    · intro card hcard
      simp [postCallback, h, hcard]
    · intro e he
      simp [postCallback, h, he]
  · intro h
    by_contra hne
    have ht : looseEqMinusOne ticketId = true := by simpa using hne
    simp [postCallback, ht] at h
    exact createdMessage_ne_retryLater ticketId h
  · intro h
    cases hcard : createCard env ticketId data <;> simp [postCallback, h, hcard]
  · intro card hcard
    constructor
    · intro h
      by_contra hne
      have ht : looseEqMinusOne ticketId = true := by simpa using hne
      simp [postCallback, ht] at h
    · intro h
      simp [postCallback, h, hcard]

/-- C8, witness: the identifier 0, with a card that is built. -/
theorem postCallback_announces_witness :
    looseEqMinusOne (.num 0) = false
    ∧ createCard ⟨.ok sampleTemplate, fun _ => .ok (.obj [])⟩ (.num 0) sampleTicket
        = .ok (.obj [])
    ∧ (postCallback ⟨.ok sampleTemplate, fun _ => .ok (.obj [])⟩ none (.num 0)
        sampleTicket).out
        = [.send (createdMessage (.num 0)), .sendCard adaptiveCard (.obj [])] :=
  ⟨by decide, rfl,
    (((postCallback_announces ⟨.ok sampleTemplate, fun _ => .ok (.obj [])⟩ (.num 0)
      sampleTicket).2.1 (by decide)).1 (.obj []) rfl).1⟩

/-- C8, counterexample: a falsy identifier is announced as a created ticket.  For the
identifier 0 the first message is the ticket-created text with the number 0. -/
theorem postCallback_announces_zero :
    (∀ (env : Env) (data : TicketRequest),
      (postCallback env none (.num 0) data).out.head?
        = some (.send "Awesome! Your ticket has been created with the number 0."))
    ∧ ¬ ∀ (env : Env) (ticketId : JSVal) (data : TicketRequest),
        Action.send (createdMessage ticketId) ∈ (postCallback env none ticketId data).out →
        ticketId.truthy = true ∧ looseEqMinusOne ticketId = false := by
  refine ⟨?_, ?_⟩
  · intro env data
    have h0 : looseEqMinusOne (.num 0) = false := by decide
    have hm : createdMessage (.num 0)
        = "Awesome! Your ticket has been created with the number 0." := by decide
    rw [← hm]
    exact postCallback_head env (.num 0) data h0
  · intro h
    have h1 := (h ⟨.error .ioError, fun _ => .error .syntaxError⟩ (.num 0) sampleTicket
      (by simp [postCallback, createCard, looseEqMinusOne])).1
    revert h1
    decide

/-! ## The `ExploreKnowledgeBase` dialog -/

/-- C10: for every entity list without a category entity the `ExploreKnowledgeBase` dialog
ends with the usage hint and issues no search call. -/
theorem exploreKnowledgeBase_without_category (entities : List Entity)
    (h : ∀ e ∈ entities, e.type ≠ "category") :
    exploreKnowledgeBase entities
        = [.endDialog (some "Try typing something like _explore hardware_.")]
      ∧ ∀ query, Action.search query ∉ exploreKnowledgeBase entities := by
  have hf : findEntity entities "category" = none := by
    unfold findEntity
    rw [List.find?_eq_none]
    intro e he
    simpa using h e he
  simp [exploreKnowledgeBase, hf, usageHint]

/-- C10, witness: an intent that carries only a severity entity. -/
theorem exploreKnowledgeBase_without_category_witness :
    (∀ e ∈ [(⟨"severity", "high", some ⟨some ["high"]⟩⟩ : Entity)], e.type ≠ "category")
    ∧ exploreKnowledgeBase [⟨"severity", "high", some ⟨some ["high"]⟩⟩]
        = [.endDialog (some "Try typing something like _explore hardware_.")]
    ∧ ∀ query,
        Action.search query ∉ exploreKnowledgeBase [⟨"severity", "high", some ⟨some ["high"]⟩⟩] :=
  ⟨by decide,
    exploreKnowledgeBase_without_category [⟨"severity", "high", some ⟨some ["high"]⟩⟩]
      (by decide)⟩

end AzureBot
